import Mathlib

/-!
Verification development for the TrafficLab real-time ETA inference core
(`backend/models/real_time_inference.py`, `backend/models/utils_targets.py`,
`backend/models/model_temporal_moe.py`).

Python floats are modelled as real numbers, Python ints as `ℤ`/`ℕ`, tensors
and lists as Lean lists, and fallible operations (`list.index`, unbound local
names, missing files) as `Except Err`.
-/

namespace TrafficLab

noncomputable section

/-- Python 3 `round` (banker's rounding: round half to even). -/
def pyRound (x : ℝ) : ℤ :=
  if Int.fract x = 1 / 2 then 2 * round (x / 2) else round x

/-- `math.log1p`. -/
def log1p (x : ℝ) : ℝ := Real.log (1 + x)

/-- `math.expm1`. -/
def expm1 (x : ℝ) : ℝ := Real.exp x - 1

theorem pyRound_intCast (n : ℤ) : pyRound (n : ℝ) = n := by
  unfold pyRound
  rw [Int.fract_intCast]
  norm_num

theorem expm1_log1p (x : ℝ) (h : 0 ≤ x) : expm1 (log1p x) = x := by
  unfold expm1 log1p
  rw [Real.exp_log (by linarith)]
  ring

/--
Per-feature normalization statistics.  In the repository these are loaded once
from `models/eda_exports/*.csv`; the CSVs are not part of the sources, so the
statistics are parameters here (the in-code fallback constants of
`real_time_inference.py` give one concrete instance, `fallbackStats`).
-/
structure Stats where
  demand_log_mean : ℝ
  demand_log_std : ℝ
  occ_log_mean : ℝ
  occ_log_std : ℝ
  speed_min : ℝ
  speed_max : ℝ
  route_length_min : ℝ
  route_length_max : ℝ
  current_x_min : ℝ
  current_x_max : ℝ
  current_y_min : ℝ
  current_y_max : ℝ
  destination_x_min : ℝ
  destination_x_max : ℝ
  destination_y_min : ℝ
  destination_y_max : ℝ

/-- The fallback constants hard-coded in `real_time_inference.py`. -/
def fallbackStats : Stats where
  demand_log_mean := 0.522151
  demand_log_std := 0.836544
  occ_log_mean := 0.093278
  occ_log_std := 0.325330
  speed_min := 0.0
  speed_max := 33.33
  route_length_min := 476.6
  route_length_max := 23133.41
  current_x_min := -4.8
  current_x_max := 18004.8
  current_y_min := -6269.76
  current_y_max := 5004.8
  destination_x_min := 11.416129830593093
  destination_x_max := 17988.49958178945
  destination_y_min := -6253.4779247844235
  destination_y_max := 4988.503014571509

/-- `RealTimeInference._denormalize_edge_demand`:
`max(0, int(round(math.expm1(normalized * log_std + log_mean))))`. -/
def denormalize_edge_demand (st : Stats) (normalized_demand : ℝ) : ℤ :=
  max 0 (pyRound (expm1 (normalized_demand * st.demand_log_std + st.demand_log_mean)))

/-- `RealTimeInference._denormalize_edge_occupancy`. -/
def denormalize_edge_occupancy (st : Stats) (normalized_occupancy : ℝ) : ℤ :=
  max 0 (pyRound (expm1 (normalized_occupancy * st.occ_log_std + st.occ_log_mean)))

/-- `RealTimeInference._denormalize_edge_speed`:
`normalized * (max - min) + min`. -/
def denormalize_edge_speed (st : Stats) (normalized_speed : ℝ) : ℝ :=
  normalized_speed * (st.speed_max - st.speed_min) + st.speed_min

/-- `RealTimeInference._normalize_edge_demand`:
`(math.log1p(raw) - log_mean) / log_std`. -/
def normalize_edge_demand (st : Stats) (raw_demand : ℝ) : ℝ :=
  (log1p raw_demand - st.demand_log_mean) / st.demand_log_std

/-- `RealTimeInference._normalize_edge_occupancy`. -/
def normalize_edge_occupancy (st : Stats) (raw_occupancy : ℝ) : ℝ :=
  (log1p raw_occupancy - st.occ_log_mean) / st.occ_log_std

/-- `RealTimeInference._normalize_edge_speed`:
`(raw - min) / max(1e-8, max - min)`. -/
def normalize_edge_speed (st : Stats) (raw_speed : ℝ) : ℝ :=
  (raw_speed - st.speed_min) / max 1e-8 (st.speed_max - st.speed_min)

/-- `RealTimeInference._normalize_route_length`. -/
def normalize_route_length (st : Stats) (route_length : ℝ) : ℝ :=
  (route_length - st.route_length_min) /
    max 1e-8 (st.route_length_max - st.route_length_min)

/-- `RealTimeInference._normalize_coordinate`. -/
def normalize_coordinate (st : Stats) (coord : ℝ) (coord_type : String) : ℝ :=
  if coord_type = "current_x" then
    (coord - st.current_x_min) / max 1e-8 (st.current_x_max - st.current_x_min)
  else if coord_type = "current_y" then
    (coord - st.current_y_min) / max 1e-8 (st.current_y_max - st.current_y_min)
  else if coord_type = "destination_x" then
    (coord - st.destination_x_min) /
      max 1e-8 (st.destination_x_max - st.destination_x_min)
  else if coord_type = "destination_y" then
    (coord - st.destination_y_min) /
      max 1e-8 (st.destination_y_max - st.destination_y_min)
  else coord

/-- `RealTimeInference._encode_zone`: one-hot over `['A','B','C','H']`. -/
def encode_zone (zone : String) : List ℝ :=
  if zone = "A" then [1, 0, 0, 0]
  else if zone = "B" then [0, 1, 0, 0]
  else if zone = "C" then [0, 0, 1, 0]
  else if zone = "H" then [0, 0, 0, 1]
  else [0, 0, 0, 0]

/-- `RealTimeInference._encode_num_lanes`: one-hot over 1..3 lanes. -/
def encode_num_lanes (num_lanes : ℕ) : List ℝ :=
  if 1 ≤ num_lanes ∧ num_lanes ≤ 3 then
    (List.range 3).map (fun i => if i = num_lanes - 1 then (1 : ℝ) else 0)
  else [0, 0, 0]

/-- Key round-trip fact: denormalizing the normalization of a non-negative
integer raw count recovers that count (the stored demand/occupancy codes are
exactly the images of integer counts). -/
theorem denormalize_normalize_edge_demand (st : Stats) (hs : st.demand_log_std ≠ 0)
    (k : ℤ) (hk : 0 ≤ k) :
    denormalize_edge_demand st (normalize_edge_demand st (k : ℝ)) = k := by
  unfold denormalize_edge_demand normalize_edge_demand
  rw [div_mul_cancel₀ _ hs]
  have h1 : expm1 (log1p (k : ℝ) - st.demand_log_mean + st.demand_log_mean) = (k : ℝ) := by
    rw [sub_add_cancel]
    exact expm1_log1p _ (by exact_mod_cast hk)
  rw [h1, pyRound_intCast]
  omega

theorem denormalize_normalize_edge_occupancy (st : Stats) (hs : st.occ_log_std ≠ 0)
    (k : ℤ) (hk : 0 ≤ k) :
    denormalize_edge_occupancy st (normalize_edge_occupancy st (k : ℝ)) = k := by
  unfold denormalize_edge_occupancy normalize_edge_occupancy
  rw [div_mul_cancel₀ _ hs]
  have h1 : expm1 (log1p (k : ℝ) - st.occ_log_mean + st.occ_log_mean) = (k : ℝ) := by
    rw [sub_add_cancel]
    exact expm1_log1p _ (by exact_mod_cast hk)
  rw [h1, pyRound_intCast]
  omega

theorem normalize_denormalize_edge_speed (st : Stats)
    (hs : 1e-8 ≤ st.speed_max - st.speed_min) (x : ℝ) :
    normalize_edge_speed st (denormalize_edge_speed st x) = x := by
  unfold normalize_edge_speed denormalize_edge_speed
  rw [max_eq_right hs]
  have hne : st.speed_max - st.speed_min ≠ 0 := by
    intro h; rw [h] at hs; norm_num at hs
  field_simp

/-- Exceptions of the modelled Python code. -/
inductive Err where
  /-- `ValueError` raised by `list.index` on a missing element. -/
  | valueError : Err
  /-- `NameError` from using a local name before its first assignment. -/
  | nameError : Err
  /-- `FileNotFoundError` raised by `_load_temporal_window`. -/
  | fileNotFound : Err
  /-- `IndexError` from an out-of-range index. -/
  | indexError : Err
deriving DecidableEq

/-- One column of `edge_index` together with the aligned entries of
`edge_type` and `edge_attr` (the code always concatenates / filters the three
tensors with the same masks, so they stay aligned). -/
structure EdgeRec where
  src : ℕ
  dst : ℕ
  ety : ℕ
  attr : List ℝ

instance : Inhabited EdgeRec := ⟨⟨0, 0, 0, []⟩⟩

/-- A `torch_geometric` `Data` snapshot as used by `real_time_inference.py`:
node features `x`, the aligned edge tensors, id lists, and the per-vehicle
auxiliary arrays. -/
structure Snapshot where
  x : List (List ℝ)
  edges : List EdgeRec
  edge_ids : List String
  junction_ids : List String
  vehicle_ids : List String
  vehicle_route_left : List ℕ
  vehicle_route_left_splits : List ℕ
  current_vehicle_current_edges : List ℕ
  current_vehicle_position_on_edges : List ℝ

instance : Inhabited Snapshot := ⟨⟨[], [], [], [], [], [], [], [], []⟩⟩

/-- Arguments of `add_vehicle_to_last_snapshot` (the vehicle insertion
request). -/
structure VehicleReq where
  veh_id : String
  start_step : ℕ
  route_edges : List String
  route_length : ℝ
  zone : String
  current_x : ℝ
  current_y : ℝ
  destination_x : ℝ
  destination_y : ℝ
  current_edge_num_lanes : ℕ
  current_edge_id : String

/-- Python `list.index`, returning the first index of `s` or `none`
(the caller turns `none` into `ValueError`). -/
def pyIndexOf : List String → String → Option ℕ
  | [], _ => none
  | a :: t, s => if a = s then some 0 else (pyIndexOf t s).map (· + 1)

/-- Lookup in the dict `{jid: i for i, jid in enumerate(junction_ids)}`:
later duplicates overwrite earlier ones, so this is the last index of `s`. -/
def dictGet (l : List String) (s : String) : Option ℕ :=
  (List.range l.length).foldl
    (fun acc i => if l.getD i "" = s then some i else acc) none

/-- `snap.edge_attr[i][k] = v` (in-range writes only; the theorems carry the
well-formedness bounds that make the Python indexing safe). -/
def setEdgeAttr (s : Snapshot) (i k : ℕ) (v : ℝ) : Snapshot :=
  let e := s.edges.getD i default
  { s with edges := s.edges.set i { e with attr := e.attr.set k v } }

/-- `RealTimeInference._get_current_edge_features`: demand / occupancy / speed
of the named edge, falling back to zeros when the edge id is unknown. -/
def get_current_edge_features (snap : Snapshot) (current_edge_id : String) :
    ℝ × ℝ × ℝ :=
  match pyIndexOf snap.edge_ids current_edge_id with
  | some edge_idx =>
      let a := (snap.edges.getD edge_idx default).attr
      (a.getD 5 0, a.getD 6 0, a.getD 0 0)
  | none => (0, 0, 0)

/-- Positive-real `x % m` as computed by Python's float `%`. -/
def pyFmod (x m : ℝ) : ℝ := x - m * ⌊x / m⌋

/-- `RealTimeInference._calculate_temporal_features`. -/
def calculate_temporal_features (timestamp_seconds : ℕ) :
    ℝ × ℝ × ℝ × ℝ :=
  let minutes := timestamp_seconds / 60
  let hours := minutes / 60
  let days := hours / 24
  let day := days % 7
  let hour := hours % 24
  let minutes_in_hour := minutes % 60
  let hour_frac := pyFmod ((hour : ℝ) + (minutes_in_hour : ℝ) / 60) 24
  (Real.sin (2 * Real.pi * hour_frac / 24),
   Real.cos (2 * Real.pi * hour_frac / 24),
   Real.sin (2 * Real.pi * (day : ℝ) / 7),
   Real.cos (2 * Real.pi * (day : ℝ) / 7))

/-- The 28-slot feature vector built from scratch for the new vehicle
(`add_vehicle_to_last_snapshot`, step "Build 28-feature vector").
`d` and `o` are the just-updated normalized current-edge demand/occupancy. -/
def mkVehicleFeatures (st : Stats) (r : VehicleReq) (d o : ℝ) : List ℝ :=
  let t := calculate_temporal_features r.start_step
  [1, 0, 1, 0, 0, 0, t.1, t.2.1, t.2.2.1, t.2.2.2,
   normalize_route_length st r.route_length, 0] ++
  encode_zone r.zone ++
  [normalize_coordinate st r.current_x "current_x",
   normalize_coordinate st r.current_y "current_y",
   normalize_coordinate st r.destination_x "destination_x",
   normalize_coordinate st r.destination_y "destination_y"] ++
  encode_num_lanes r.current_edge_num_lanes ++
  [d, o, 0, 0, 0]

/-- Scanner for `re.findall(r'[A-Z]+\d+', s)` used to parse edge ids into
junction ids (fuel-indexed; the fuel is the string length). -/
def findTokensAux : ℕ → List Char → List String
  | 0, _ => []
  | _ + 1, [] => []
  | fuel + 1, c :: rest =>
    if c.isUpper then
      let us := (c :: rest).takeWhile Char.isUpper
      let r1 := (c :: rest).dropWhile Char.isUpper
      let ds := r1.takeWhile Char.isDigit
      let r2 := r1.dropWhile Char.isDigit
      if ds.isEmpty then findTokensAux fuel r1
      else String.mk (us ++ ds) :: findTokensAux fuel r2
    else findTokensAux fuel rest

/-- `re.findall(r'[A-Z]+\d+', s)`. -/
def findTokens (s : String) : List String :=
  findTokensAux s.length s.data

/-- `edge_feature_dim = current_pt_file.edge_attr.shape[1] if ... else 7`:
the attribute width of the first stored edge, defaulting to 7. -/
def edge_feature_dim (edges : List EdgeRec) : ℕ :=
  match edges with
  | [] => 7
  | e :: _ => e.attr.length

/-- The `existing_vehicles_on_edge` scan of `_construct_dynamic_edges`: every
vehicle index other than the new one whose current edge equals the new
vehicle's current edge. -/
def existingVehicles (snap : Snapshot) (new_vehicle_idx : ℕ) : List ℕ :=
  (List.range snap.current_vehicle_current_edges.length).filter
    (fun i => decide (i ≠ new_vehicle_idx ∧
      snap.current_vehicle_current_edges.getD i 0 =
        snap.current_vehicle_current_edges.getD new_vehicle_idx 0))

/-- `RealTimeInference._construct_dynamic_edges`.  Returns the snapshot (with
any stale Junction→Vehicle edge removed) and the list of freshly built dynamic
edges; every internal failure is swallowed by the function's own
`try/except`, which returns empty edge lists. -/
def construct_dynamic_edges (snap : Snapshot) (new_vehicle_idx : ℕ) :
    Snapshot × List EdgeRec :=
  let cvce := snap.current_vehicle_current_edges
  if new_vehicle_idx < cvce.length then
    let new_vehicle_edge_idx := cvce.getD new_vehicle_idx 0
    if new_vehicle_edge_idx < snap.edge_ids.length then
      let new_vehicle_edge_id := snap.edge_ids.getD new_vehicle_edge_idx ""
      let ms := findTokens new_vehicle_edge_id
      let fromTo : Option (String × String) :=
        if 2 ≤ ms.length then some (ms.getD 0 "", ms.getD 1 "")
        else if ms.length = 1 then some (ms.getD 0 "", ms.getD 0 "")
        else none
      match fromTo with
      | none => (snap, [])
      | some (from_junction, to_junction) =>
        match dictGet snap.junction_ids from_junction,
              dictGet snap.junction_ids to_junction with
        | some from_junction_idx, some to_junction_idx =>
          let new_vehicle_global_idx := snap.junction_ids.length + new_vehicle_idx
          let dim := edge_feature_dim snap.edges
          let existing := existingVehicles snap new_vehicle_idx
          if existing.isEmpty then
            (snap,
             [⟨from_junction_idx, new_vehicle_global_idx, 1,
               List.replicate dim 0⟩,
              ⟨new_vehicle_global_idx, to_junction_idx, 2,
               List.replicate dim 0⟩])
          else
            let pos := snap.current_vehicle_position_on_edges
            if existing.all (fun i => decide (i < pos.length)) then
              let sortedEx := existing.mergeSort
                (fun i j => decide (pos.getD i 0 ≤ pos.getD j 0))
              let first_vehicle_idx := sortedEx.headD 0
              let first_vehicle_global_idx :=
                snap.junction_ids.length + first_vehicle_idx
              let keep : EdgeRec → Bool := fun e =>
                decide (¬ (e.src = from_junction_idx ∧
                           e.dst = first_vehicle_global_idx ∧ e.ety = 1))
              ({ snap with edges := snap.edges.filter keep },
               [⟨from_junction_idx, new_vehicle_global_idx, 1,
                 List.replicate dim 0⟩,
                ⟨new_vehicle_global_idx, first_vehicle_global_idx, 3,
                 List.replicate dim 0⟩])
            else (snap, [])
        | _, _ => (snap, [])
    else (snap, [])
  else (snap, [])

/-- The dict `original_edge_demands` captured from the *pre-update* snapshot
(`add_vehicle_to_last_snapshot`, "Store original values ... BEFORE any
updates"). -/
def mkOriginalDemands (snap : Snapshot) (route_edges : List String) :
    String → Option ℝ :=
  route_edges.foldl
    (fun m e =>
      match pyIndexOf snap.edge_ids e with
      | some i =>
          fun k =>
            if k = e then some (((snap.edges.getD i default).attr).getD 5 0)
            else m k
      | none => m)
    (fun _ => none)

/-- The inner loop of the route-demand update: propagate the freshly written
normalized demand of edge `li` into slot 23 of every node row whose
per-vehicle current-edge entry equals `li`.  `lv = none` models the local
`new_edge_demand_normalized` being unbound (Python `NameError`). -/
def sync_vehicle_demand (li : ℕ) (lv : Option ℝ) :
    Snapshot → List ℕ → Except Err Snapshot
  | s, [] => pure s
  | s, i :: rest =>
    if i < s.current_vehicle_current_edges.length then
      if s.current_vehicle_current_edges.getD i 0 = li then
        if i < s.x.length then
          match lv with
          | none => throw Err.nameError
          | some v =>
            if 23 < (s.x.getD i []).length then
              sync_vehicle_demand li lv
                { s with x := s.x.set i ((s.x.getD i []).set 23 v) } rest
            else throw Err.indexError
        else sync_vehicle_demand li lv s rest
      else sync_vehicle_demand li lv s rest
    else throw Err.indexError

/-- The per-route-edge demand update loop of `add_vehicle_to_last_snapshot`
(lines "Update edge demand for all edges in the new vehicle's remaining
route").  State: snapshot, last bound `edge_idx`, last bound
`new_edge_demand_normalized`. -/
def route_demand_loop (stt : Stats) (orig : String → Option ℝ) :
    Snapshot → ℕ → Option ℝ → List String → Except Err (Snapshot × ℕ × Option ℝ)
  | s, li, lv, [] => pure (s, li, lv)
  | s, li, lv, e :: rest =>
    match pyIndexOf s.edge_ids e with
    | some i =>
      if i < s.edges.length then
        if 5 < ((s.edges.getD i default).attr).length then
          let nv := normalize_edge_demand stt
            ((denormalize_edge_demand stt ((orig e).getD 0) + 1 : ℤ) : ℝ)
          let s1 := setEdgeAttr s i 5 nv
          match sync_vehicle_demand i (some nv) s1
              (List.range s1.vehicle_ids.length) with
          | Except.error err => Except.error err
          | Except.ok s2 => route_demand_loop stt orig s2 i (some nv) rest
        else throw Err.indexError
      else throw Err.indexError
    | none =>
      match sync_vehicle_demand li lv s (List.range s.vehicle_ids.length) with
      | Except.error err => Except.error err
      | Except.ok s2 => route_demand_loop stt orig s2 li lv rest

/-- The append block of `add_vehicle_to_last_snapshot` before dynamic-edge
construction: append the new vehicle's id, its current-edge index (the index
of `route_edges[0]`!), position 0.0, and the remaining-route indices and
split length. -/
def append_route_and_ids (r : VehicleReq) (s2 : Snapshot) : Snapshot :=
  let s3 := { s2 with vehicle_ids := s2.vehicle_ids ++ [r.veh_id] }
  let cur_append : ℕ :=
    match r.route_edges with
    | [] => 0
    | e0 :: _ =>
      match pyIndexOf s3.edge_ids e0 with
      | some i => i
      | none => 0
  let s4 := { s3 with current_vehicle_current_edges :=
                s3.current_vehicle_current_edges ++ [cur_append] }
  let s5 := { s4 with current_vehicle_position_on_edges :=
                s4.current_vehicle_position_on_edges ++ [0] }
  let route_tensor := r.route_edges.map
    (fun e => (pyIndexOf s5.edge_ids e).getD 0)
  { s5 with
      vehicle_route_left := s5.vehicle_route_left ++ route_tensor,
      vehicle_route_left_splits :=
        s5.vehicle_route_left_splits ++ [r.route_edges.length] }

/-- The pure tail of `add_vehicle_to_last_snapshot` after the route-demand
loop: append the new vehicle's id, current-edge index (the index of
`route_edges[0]`!), position 0.0, remaining-route indices and split, then
reconcile dynamic edges and append the new 28-slot feature row. -/
def append_new_vehicle (st : Stats) (r : VehicleReq)
    (current_edge_demand current_edge_occupancy : ℝ) (s2 : Snapshot) :
    Snapshot :=
  let new_vehicle_idx := s2.vehicle_ids.length
  let s6 := append_route_and_ids r s2
  let dres := construct_dynamic_edges s6 new_vehicle_idx
  let s8 := if dres.2.isEmpty then dres.1
            else { dres.1 with edges := dres.1.edges ++ dres.2 }
  let fv := mkVehicleFeatures st r current_edge_demand current_edge_occupancy
  { s8 with x := s8.x ++ [fv] }

/-- The incremented and renormalized current-edge demand
(`current_edge_demand` after lines "add the new vehicle effect ...
normalize"). -/
def updated_current_demand (st : Stats) (snap : Snapshot) (r : VehicleReq) : ℝ :=
  normalize_edge_demand st
    ((denormalize_edge_demand st
      (get_current_edge_features snap r.current_edge_id).1 + 1 : ℤ) : ℝ)

/-- The incremented and renormalized current-edge occupancy. -/
def updated_current_occupancy (st : Stats) (snap : Snapshot)
    (r : VehicleReq) : ℝ :=
  normalize_edge_occupancy st
    ((denormalize_edge_occupancy st
      (get_current_edge_features snap r.current_edge_id).2.1 + 1 : ℤ) : ℝ)

/-- The round-tripped current-edge speed. -/
def updated_current_speed (st : Stats) (snap : Snapshot) (r : VehicleReq) : ℝ :=
  normalize_edge_speed st
    (denormalize_edge_speed st
      (get_current_edge_features snap r.current_edge_id).2.2)

/-- The `original_edge_demands` dict as read by the route loop: captured
pre-update values, overwritten for the current edge (when it is on the route)
by reversing the current-edge update. -/
def original_demands (st : Stats) (snap : Snapshot) (r : VehicleReq) :
    String → Option ℝ :=
  if r.current_edge_id ∈ r.route_edges then
    fun k =>
      if k = r.current_edge_id then
        some (normalize_edge_demand st
          ((denormalize_edge_demand st
            (updated_current_demand st snap r) - 1 : ℤ) : ℝ))
      else mkOriginalDemands snap r.route_edges k
  else mkOriginalDemands snap r.route_edges

/-- `RealTimeInference.add_vehicle_to_last_snapshot`. -/
def add_vehicle_to_last_snapshot (st : Stats) (snap : Snapshot)
    (r : VehicleReq) : Except Err Snapshot :=
  match pyIndexOf snap.edge_ids r.current_edge_id with
  | none => Except.error Err.valueError
  | some eIdx =>
    if eIdx < snap.edges.length then
      if 6 < ((snap.edges.getD eIdx default).attr).length then
        match route_demand_loop st (original_demands st snap r)
            (setEdgeAttr
              (setEdgeAttr (setEdgeAttr snap eIdx 0
                (updated_current_speed st snap r))
                eIdx 5 (updated_current_demand st snap r))
              eIdx 6 (updated_current_occupancy st snap r))
            eIdx none r.route_edges with
        | Except.error err => Except.error err
        | Except.ok lp =>
          Except.ok
            (append_new_vehicle st r (updated_current_demand st snap r)
              (updated_current_occupancy st snap r) lp.1)
      else throw Err.indexError
    else throw Err.indexError

/-- In-place run semantics of the vehicle-row sync loop: the final state of
the snapshot object together with the raised error, if any.  Writes executed
before a raise persist, exactly as Python's in-place tensor writes do. -/
def sync_vehicle_demand_run (li : ℕ) (lv : Option ℝ) :
    Snapshot → List ℕ → Snapshot × Option Err
  | s, [] => (s, none)
  | s, i :: rest =>
    if i < s.current_vehicle_current_edges.length then
      if s.current_vehicle_current_edges.getD i 0 = li then
        if i < s.x.length then
          match lv with
          | none => (s, some Err.nameError)
          | some v =>
            if 23 < (s.x.getD i []).length then
              sync_vehicle_demand_run li lv
                { s with x := s.x.set i ((s.x.getD i []).set 23 v) } rest
            else (s, some Err.indexError)
        else sync_vehicle_demand_run li lv s rest
      else sync_vehicle_demand_run li lv s rest
    else (s, some Err.indexError)

/-- In-place run semantics of the per-route-edge demand loop: final snapshot
state, last bound `edge_idx` and `new_edge_demand_normalized`, and the raised
error if any.  On a raise the snapshot keeps every write made so far. -/
def route_demand_loop_run (stt : Stats) (orig : String → Option ℝ) :
    Snapshot → ℕ → Option ℝ → List String →
      (Snapshot × ℕ × Option ℝ) × Option Err
  | s, li, lv, [] => ((s, li, lv), none)
  | s, li, lv, e :: rest =>
    match pyIndexOf s.edge_ids e with
    | some i =>
      if i < s.edges.length then
        if 5 < ((s.edges.getD i default).attr).length then
          let nv := normalize_edge_demand stt
            ((denormalize_edge_demand stt ((orig e).getD 0) + 1 : ℤ) : ℝ)
          let s1 := setEdgeAttr s i 5 nv
          match sync_vehicle_demand_run i (some nv) s1
              (List.range s1.vehicle_ids.length) with
          | (s2, some err) => ((s2, i, some nv), some err)
          | (s2, none) => route_demand_loop_run stt orig s2 i (some nv) rest
        else ((s, li, lv), some Err.indexError)
      else ((s, li, lv), some Err.indexError)
    | none =>
      match sync_vehicle_demand_run li lv s
          (List.range s.vehicle_ids.length) with
      | (s2, some err) => ((s2, li, lv), some err)
      | (s2, none) => route_demand_loop_run stt orig s2 li lv rest

/-- In-place run semantics of `add_vehicle_to_last_snapshot`: the final state
of the snapshot object bound to `current_pt_file` together with the raised
error, if any.  The three current-edge attribute writes are performed one at
a time, so a raise part-way through (or later, in the route loop) leaves the
earlier writes behind, exactly as in Python. -/
def add_vehicle_run (st : Stats) (snap : Snapshot) (r : VehicleReq) :
    Snapshot × Option Err :=
  match pyIndexOf snap.edge_ids r.current_edge_id with
  | none => (snap, some Err.valueError)
  | some eIdx =>
    if eIdx < snap.edges.length then
      if 0 < ((snap.edges.getD eIdx default).attr).length then
        let s0 := setEdgeAttr snap eIdx 0 (updated_current_speed st snap r)
        if 5 < ((snap.edges.getD eIdx default).attr).length then
          let s5 := setEdgeAttr s0 eIdx 5 (updated_current_demand st snap r)
          if 6 < ((snap.edges.getD eIdx default).attr).length then
            let s6 :=
              setEdgeAttr s5 eIdx 6 (updated_current_occupancy st snap r)
            match route_demand_loop_run st (original_demands st snap r) s6
                eIdx none r.route_edges with
            | (lp, some err) => (lp.1, some err)
            | (lp, none) =>
              (append_new_vehicle st r (updated_current_demand st snap r)
                (updated_current_occupancy st snap r) lp.1, none)
          else (s5, some Err.indexError)
        else (s0, some Err.indexError)
      else (snap, some Err.indexError)
    else (snap, some Err.indexError)

/--
Heap-level view of a call to `add_vehicle_to_last_snapshot`, making Python
object identity explicit: the heap is a list of snapshot objects and `a` is
the address of the snapshot bound to the `current_pt_file` parameter.  Every
mutation statement inside the Python function targets attributes of that one
object, so after the call — whether it returned normally or raised — the heap
holds the run's final object state at `a`, and the call hands back the same
address `a` together with the raised error, if any.
-/
def add_vehicle_heap (st : Stats) (heap : List Snapshot) (a : ℕ)
    (r : VehicleReq) : List Snapshot × ℕ × Option Err :=
  (heap.set a (add_vehicle_run st (heap.getD a default) r).1, a,
   (add_vehicle_run st (heap.getD a default) r).2)

/-- The closest-file scan of `_load_temporal_window`: first index minimizing
`abs(step_num - current_step)` (strict `<`, so the first minimizer wins;
the initial `min_diff` is `float('inf')`, modelled by `none`). -/
def closest_file_idx (steps : List ℕ) (current_step : ℕ) : ℕ :=
  ((List.range steps.length).foldl
    (fun acc i =>
      let diff := ((steps.getD i 0 : ℤ) - (current_step : ℤ)).natAbs
      match acc.2 with
      | none => (i, some diff)
      | some m => if diff < m then (i, some diff) else acc)
    ((0 : ℕ), (none : Option ℕ))).1

/-- `(current_file_idx - (window_size - 1 - i)) % total_files` for
`i in range(window_size)` (Python `%` on a positive modulus is the
non-negative remainder). -/
def window_indices (W N found : ℕ) : List ℕ :=
  (List.range W).map
    (fun (i : ℕ) => (((found : ℤ) - ((W : ℤ) - 1 - (i : ℤ))) % (N : ℤ)).toNat)

/-- `RealTimeInference._load_temporal_window`.  File discovery
(`glob` + `sorted(..., key=extract_step_number)` + `torch.load`) lives outside
the embeddable fragment, so the function takes the sorted list of
(embedded step number, loaded snapshot) pairs. -/
def load_temporal_window (W : ℕ) (files : List (ℕ × Snapshot))
    (current_step : ℕ) : Except Err (List Snapshot) :=
  if files.isEmpty then throw Err.fileNotFound
  else
    let found := closest_file_idx (files.map (fun f => f.1)) current_step
    (window_indices W files.length found).mapM
      (fun idx =>
        if idx < files.length then pure (files.getD idx (0, default)).2
        else throw Err.indexError)

/-- Per-graph label statistics attached to a snapshot
(`eta_p98`, `eta_mean`, `eta_std`, `eta_log_mean`, `eta_log_std`). -/
structure EtaStats where
  eta_p98 : ℝ
  eta_mean : ℝ
  eta_std : ℝ
  eta_log_mean : ℝ
  eta_log_std : ℝ

/-- `utils_targets.invert_to_seconds`, per vehicle (the tensor version maps
this scalar transform over the vehicle rows; `clamp_min c` is `max c ·`).
An unknown `target_key` raises `ValueError`. -/
def invert_to_seconds (y_like : ℝ) (bt : EtaStats) (target_key : String) :
    Except Err ℝ :=
  if target_key = "y" then
    Except.ok (max 0 y_like)
  else if target_key = "y_minmax" then
    Except.ok (max 0 (y_like * max 1 bt.eta_p98))
  else if target_key = "y_z" then
    Except.ok (max 0 (y_like * max 1e-8 bt.eta_std + bt.eta_mean))
  else if target_key = "y_log" then
    Except.ok (max 0 (expm1 y_like))
  else if target_key = "y_log_z" then
    Except.ok (max 0 (expm1 (y_like * max 1e-8 bt.eta_log_std + bt.eta_log_mean)))
  else Except.error Err.valueError

/-- The five target encodings of `utils_targets.invert_to_seconds`. -/
def targetKeys : List String := ["y", "y_minmax", "y_z", "y_log", "y_log_z"]

/-- Slice assignment `row[a:b] = 0`. -/
def zeroSlots (a b : ℕ) (row : List ℝ) : List ℝ :=
  row.mapIdx (fun i v => if a ≤ i ∧ i < b then 0 else v)

/-- The ablation variants that disable route features
(`_maybe_zero_route_features`, first branch). -/
def noRouteVariants : List String :=
  ["base_graph", "dynamic_graph", "temporal_base", "temporal_dynamic"]

/-- The route-aware ablation variants (second branch). -/
def routeAwareVariants : List String := ["route_graph", "temporal_route_aware"]

/-- Legacy variant names of the third branch (unreachable for validated
configurations, kept for fidelity). -/
def legacyNoRouteVariants : List String := ["no_route", "no_temporal_no_route"]

/-- The six ablation variants accepted by `TemporalMoEETA.__init__`. -/
def sixVariants : List String :=
  ["base_graph", "dynamic_graph", "route_graph",
   "temporal_base", "temporal_dynamic", "temporal_route_aware"]

/-- Row-level action of `TemporalMoEETA._maybe_zero_route_features`
(`width` is `x.size(1)`; the branches mirror the `ablation_variant`
`if`/`elif` chain, and rows failing the vehicle mask `x[:, 0] > 0.5` are
untouched). -/
def maskRowVariant (variant : String) (width : ℕ) (row : List ℝ) : List ℝ :=
  if row.getD 0 0 > 0.5 then
    if variant ∈ noRouteVariants then
      if 26 < width then zeroSlots 20 27 (zeroSlots 10 12 row) else row
    else if variant ∈ routeAwareVariants then
      if 26 < width then zeroSlots 20 27 row else row
    else if variant ∈ legacyNoRouteVariants then
      if 26 < width then zeroSlots 20 27 (zeroSlots 10 12 row) else row
    else row
  else row

/-- `TemporalMoEETA._maybe_zero_route_features` (the vehicle mask is computed
from column 0 of the same tensor that is masked, as in
`forward`'s call `_maybe_zero_route_features(bt, bt.x)`). -/
def maybe_zero_route_features (variant : String) (x : List (List ℝ)) :
    List (List ℝ) :=
  x.map (maskRowVariant variant (x.headD []).length)

/-- `TemporalMoEETA._maybe_zero_edge_route_features`. -/
def maybe_zero_edge_route_features (variant : String)
    (edge_attr : List (List ℝ)) : List (List ℝ) :=
  if variant ∈ noRouteVariants then
    if 6 < (edge_attr.headD []).length then edge_attr.map (zeroSlots 5 7)
    else edge_attr
  else edge_attr

/-! ### Concrete example data -/

/-- Snapshot standing for the file `step_0.pt` in examples (distinguished by
its vehicle-id list). -/
def snapStepA : Snapshot := ⟨[], [], [], [], ["a"], [], [], [], []⟩

/-- Snapshot standing for the file `step_10.pt` in examples. -/
def snapStepB : Snapshot := ⟨[], [], [], [], ["b"], [], [], [], []⟩

/-- Snapshot standing for the file `step_20.pt` in examples. -/
def snapStepC : Snapshot := ⟨[], [], [], [], ["c"], [], [], [], []⟩

/-- A well-formed one-edge snapshot (edge `A0B0` between junctions `A0` and
`B0`, no vehicles) used as witness data. -/
def snapW : Snapshot :=
  { x := []
    edges := [⟨0, 1, 0, [0, 0, 0, 0, 0, 0, 0]⟩]
    edge_ids := ["A0B0"]
    junction_ids := ["A0", "B0"]
    vehicle_ids := []
    vehicle_route_left := []
    vehicle_route_left_splits := []
    current_vehicle_current_edges := []
    current_vehicle_position_on_edges := [] }

/-- An insertion request whose current edge `A0B0` is also `route_edges[0]`
(the double-count scenario of the demand-propagation property). -/
def reqW : VehicleReq :=
  { veh_id := "vnew"
    start_step := 3600
    route_edges := ["A0B0"]
    route_length := 1000
    zone := "A"
    current_x := 1
    current_y := 1
    destination_x := 2
    destination_y := 2
    current_edge_num_lanes := 2
    current_edge_id := "A0B0" }

/-- An insertion request whose current edge id `Z9Z9` is not present in the
snapshot's edge-id list. -/
def reqBad : VehicleReq :=
  { veh_id := "vbad"
    start_step := 0
    route_edges := ["A0B0"]
    route_length := 10
    zone := "A"
    current_x := 0
    current_y := 0
    destination_x := 0
    destination_y := 0
    current_edge_num_lanes := 1
    current_edge_id := "Z9Z9" }

/-- A snapshot for the occupied case of dynamic-edge reconciliation: vehicle
`v0` (global node index 2) already sits on edge `A0B0` at position `1/2` with
its stale Junction→Vehicle edge stored, and the freshly appended vehicle
`vnew` (vehicle index 1, global node index 3) lands on the same edge. -/
def snapO : Snapshot :=
  { x := []
    edges := [⟨0, 1, 0, [0, 0, 0, 0, 0, 0, 0]⟩,
              ⟨0, 2, 1, [0, 0, 0, 0, 0, 0, 0]⟩]
    edge_ids := ["A0B0"]
    junction_ids := ["A0", "B0"]
    vehicle_ids := ["v0", "vnew"]
    vehicle_route_left := []
    vehicle_route_left_splits := []
    current_vehicle_current_edges := [0, 0]
    current_vehicle_position_on_edges := [1/2, 0] }

/-- Statistics with zero means and unit deviations (and unit spans for the
min-max pairs), under which the log1p/expm1 normalisation pair is plain
`log1p`/`expm1`. -/
def statsZ : Stats :=
  { demand_log_mean := 0
    demand_log_std := 1
    occ_log_mean := 0
    occ_log_std := 1
    speed_min := 0
    speed_max := 1
    route_length_min := 0
    route_length_max := 1
    current_x_min := 0
    current_x_max := 1
    current_y_min := 0
    current_y_max := 1
    destination_x_min := 0
    destination_x_max := 1
    destination_y_min := 0
    destination_y_max := 1 }

/-- A snapshot with one vehicle row sitting on the single edge `A0B0`: the
stage for a route-loop `NameError` that strikes after the current-edge
attribute writes have already gone through. -/
def snapP : Snapshot :=
  { x := [[0]]
    edges := [⟨0, 1, 0, [0, 0, 0, 0, 0, 0, 0]⟩]
    edge_ids := ["A0B0"]
    junction_ids := ["A0", "B0"]
    vehicle_ids := ["v0"]
    vehicle_route_left := []
    vehicle_route_left_splits := [0]
    current_vehicle_current_edges := [0]
    current_vehicle_position_on_edges := [0] }

/-- An insertion request whose current edge `A0B0` is known but whose single
route edge `Q9Q9` is not: the route loop then reaches the vehicle sync with
`new_edge_demand_normalized` never assigned. -/
def reqP : VehicleReq :=
  { veh_id := "vp"
    start_step := 0
    route_edges := ["Q9Q9"]
    route_length := 10
    zone := "A"
    current_x := 0
    current_y := 0
    destination_x := 0
    destination_y := 0
    current_edge_num_lanes := 1
    current_edge_id := "A0B0" }

/-! ## Theorems -/

/-! ### List helper lemmas -/

theorem getD_map {α β : Type _} (f : α → β) (l : List α) (i : ℕ) (d : β)
    (e : α) (h : i < l.length) : (l.map f).getD i d = f (l.getD i e) := by
  simp [List.getD, List.getElem?_map, List.getElem?_eq_getElem h]

theorem getD_mem {α : Type _} (l : List α) (i : ℕ) (d : α)
    (h : i < l.length) : l.getD i d ∈ l := by
  have : l.getD i d = l[i] := by
    simp [List.getD, List.getElem?_eq_getElem h]
  rw [this]
  exact List.getElem_mem h

theorem getD_set_ne {α : Type _} (l : List α) (k j : ℕ) (v d : α)
    (h : k ≠ j) : (l.set k v).getD j d = l.getD j d := by
  simp [List.getD, List.getElem?_set, h]

theorem headD_length_of_all {α : Type _} {n : ℕ} (x : List (List α))
    (hne : x ≠ []) (hx : ∀ r ∈ x, r.length = n) : (x.headD []).length = n := by
  cases x with
  | nil => exact absurd rfl hne
  | cons r t => exact hx r (List.mem_cons_self r t)

theorem map_set_getD_self {α β : Type _} (f : α → β) (x : List α) (i : ℕ)
    (d : α) (h : i < x.length) :
    (x.map f).set i (f (x.getD i d)) = x.map f := by
  apply List.ext_getElem?
  intro n
  rw [List.getElem?_set]
  by_cases hin : i = n
  · subst hin
    rw [if_pos rfl, if_pos (by simpa using h), List.getElem?_map,
      List.getElem?_eq_getElem h]
    simp [List.getD, List.getElem?_eq_getElem h]
  · rw [if_neg hin]

theorem length_zeroSlots (a b : ℕ) (row : List ℝ) :
    (zeroSlots a b row).length = row.length := by
  simp [zeroSlots]

theorem getD_zeroSlots (a b j : ℕ) (row : List ℝ) (h : j < row.length) :
    (zeroSlots a b row).getD j 0 =
      if a ≤ j ∧ j < b then 0 else row.getD j 0 := by
  simp only [zeroSlots, List.getD, List.get?_eq_getElem?, List.getElem?_mapIdx]
  rw [List.getElem?_eq_getElem h]
  by_cases hab : a ≤ j ∧ j < b <;> simp [hab]

theorem zeroSlots_set_inside (a b k : ℕ) (row : List ℝ) (v : ℝ)
    (h1 : a ≤ k) (h2 : k < b) :
    zeroSlots a b (row.set k v) = zeroSlots a b row := by
  apply List.ext_getElem?
  intro n
  simp only [zeroSlots, List.getElem?_mapIdx, List.getElem?_set]
  by_cases hk : k = n
  · subst hk
    by_cases hl : k < row.length
    · simp [hl, List.getElem?_eq_getElem hl, h1, h2]
    · simp [hl, List.getElem?_eq_none (Nat.le_of_not_lt hl)]
  · simp [hk]

theorem zeroSlots_set_outside (a b k : ℕ) (row : List ℝ) (v : ℝ)
    (h : ¬(a ≤ k ∧ k < b)) :
    zeroSlots a b (row.set k v) = (zeroSlots a b row).set k v := by
  apply List.ext_getElem?
  intro n
  simp only [zeroSlots, List.getElem?_mapIdx, List.getElem?_set,
    List.length_mapIdx]
  by_cases hk : k = n
  · subst hk
    by_cases hl : k < row.length
    · simp [hl, List.getElem?_eq_getElem hl, h]
    · simp [hl, List.getElem?_eq_none (Nat.le_of_not_lt hl)]
  · simp [hk]

/-- C7: for each of the five target encodings and all real model outputs and
per-graph statistics, `invert_to_seconds` succeeds with a non-negative value;
every other target-encoding tag is a fatal configuration error
(`ValueError`). -/
theorem C7_invert_to_seconds_nonneg :
    (∀ k ∈ targetKeys, ∀ (y : ℝ) (bt : EtaStats),
      ∃ v, invert_to_seconds y bt k = Except.ok v ∧ 0 ≤ v) ∧
    (∀ k : String, k ∉ targetKeys → ∀ (y : ℝ) (bt : EtaStats),
      invert_to_seconds y bt k = Except.error Err.valueError) := by
  constructor
  · intro k hk y bt
    simp only [targetKeys, List.mem_cons, List.not_mem_nil, or_false] at hk
    rcases hk with h | h | h | h | h <;> subst h <;>
      exact ⟨_, rfl, le_max_left 0 _⟩
  · intro k hk y bt
    simp only [targetKeys, List.mem_cons, List.not_mem_nil, or_false,
      not_or] at hk
    obtain ⟨h1, h2, h3, h4, h5⟩ := hk
    simp only [invert_to_seconds, if_neg h1, if_neg h2, if_neg h3,
      if_neg h4, if_neg h5]

/-- Witness for C7 at the concrete key `"y_log"` (success, non-negative) and
at the unknown key `"y_raw"` (fatal error). -/
theorem C7_invert_to_seconds_nonneg_witness :
    (∃ v, invert_to_seconds 3 ⟨10, 20, 30, 40, 50⟩ "y_log" = Except.ok v ∧ 0 ≤ v) ∧
    invert_to_seconds 3 ⟨10, 20, 30, 40, 50⟩ "y_raw" = Except.error Err.valueError :=
  ⟨C7_invert_to_seconds_nonneg.1 "y_log" (by simp [targetKeys]) 3 _,
   C7_invert_to_seconds_nonneg.2 "y_raw" (by simp [targetKeys]) 3 _⟩

/-- C3 counterexample: with the fallback statistics hard-coded in
`real_time_inference.py`, the round-trip `normalize ∘ denormalize` on edge
demand is not the identity on the normalized input space: at the normalized
value coding a raw demand of 0.4, `denormalize` rounds to the integer 0, so
renormalizing yields the code of 0 instead of the original value (the gap is
`log1p 0.4 / log_std ≈ 0.40`, far outside floating tolerance). -/
theorem C3_roundtrip_counterexample :
    normalize_edge_demand fallbackStats
        ((denormalize_edge_demand fallbackStats
            (normalize_edge_demand fallbackStats 0.4) : ℤ) : ℝ) ≠
      normalize_edge_demand fallbackStats 0.4 := by
  have hs : fallbackStats.demand_log_std ≠ 0 := by norm_num [fallbackStats]
  have hpos : 0 < log1p (0.4 : ℝ) := by
    have : (1 : ℝ) < 1 + 0.4 := by norm_num
    simpa [log1p] using Real.log_pos this
  have hd : denormalize_edge_demand fallbackStats
      (normalize_edge_demand fallbackStats 0.4) = 0 := by
    unfold denormalize_edge_demand normalize_edge_demand
    rw [div_mul_cancel₀ _ hs, sub_add_cancel,
      expm1_log1p (0.4 : ℝ) (by norm_num)]
    have hr : pyRound (0.4 : ℝ) = 0 := by
      unfold pyRound
      rw [if_neg, round_eq]
      · norm_num
      · rw [Int.fract]
        norm_num
    rw [hr]
    simp
  rw [hd]
  unfold normalize_edge_demand
  intro h
  have h2 : log1p ((0 : ℤ) : ℝ) - fallbackStats.demand_log_mean =
      log1p 0.4 - fallbackStats.demand_log_mean := by
    have h3 := congrArg (fun t => t * fallbackStats.demand_log_std) h
    simpa [div_mul_cancel₀, hs] using h3
  have h0 : log1p ((0 : ℤ) : ℝ) = 0 := by
    simp [log1p]
  rw [h0] at h2
  nlinarith [hpos]

/-- C3 amended: the round-trip is the identity exactly on the stored codes —
for demand and occupancy on every normalized value that codes an integer raw
count (the only values the pipeline ever stores), and for speed on the whole
normalized input space. -/
theorem C3_roundtrip_amended (st : Stats)
    (hd : st.demand_log_std ≠ 0) (ho : st.occ_log_std ≠ 0)
    (hsp : 1e-8 ≤ st.speed_max - st.speed_min) :
    (∀ n : ℕ, normalize_edge_demand st
        ((denormalize_edge_demand st (normalize_edge_demand st (n : ℝ)) : ℤ) : ℝ) =
      normalize_edge_demand st (n : ℝ)) ∧
    (∀ n : ℕ, normalize_edge_occupancy st
        ((denormalize_edge_occupancy st (normalize_edge_occupancy st (n : ℝ)) : ℤ) : ℝ) =
      normalize_edge_occupancy st (n : ℝ)) ∧
    (∀ x : ℝ, normalize_edge_speed st (denormalize_edge_speed st x) = x) := by
  refine ⟨fun n => ?_, fun n => ?_, fun x => normalize_denormalize_edge_speed st hsp x⟩
  · have h := denormalize_normalize_edge_demand st hd (n : ℤ) (Int.natCast_nonneg n)
    rw [show (((n : ℤ) : ℝ)) = (n : ℝ) by push_cast; ring] at h
    rw [h]
    push_cast
    ring_nf
  · have h := denormalize_normalize_edge_occupancy st ho (n : ℤ) (Int.natCast_nonneg n)
    rw [show (((n : ℤ) : ℝ)) = (n : ℝ) by push_cast; ring] at h
    rw [h]
    push_cast
    ring_nf

/-- Witness for C3 amended at the fallback statistics and raw count 3. -/
theorem C3_roundtrip_amended_witness :
    normalize_edge_demand fallbackStats
        ((denormalize_edge_demand fallbackStats
            (normalize_edge_demand fallbackStats ((3 : ℕ) : ℝ)) : ℤ) : ℝ) =
      normalize_edge_demand fallbackStats ((3 : ℕ) : ℝ) :=
  (C3_roundtrip_amended fallbackStats
    (by norm_num [fallbackStats]) (by norm_num [fallbackStats])
    (by norm_num [fallbackStats])).1 3

/-! ### C10: ablation feature mask -/

theorem maskRowVariant_noRoute (v : String) (hv : v ∈ noRouteVariants)
    (row : List ℝ) (hveh : 0.5 < row.getD 0 0) :
    maskRowVariant v 28 row = zeroSlots 20 27 (zeroSlots 10 12 row) := by
  unfold maskRowVariant
  rw [if_pos hveh, if_pos hv, if_pos (by norm_num)]

theorem maskRowVariant_routeAware (v : String) (hv : v ∈ routeAwareVariants)
    (hv' : v ∉ noRouteVariants) (row : List ℝ) (hveh : 0.5 < row.getD 0 0) :
    maskRowVariant v 28 row = zeroSlots 20 27 row := by
  unfold maskRowVariant
  rw [if_pos hveh, if_neg hv', if_pos hv, if_pos (by norm_num)]

theorem maybe_zero_getD (v : String) (x : List (List ℝ)) (i : ℕ)
    (h : i < x.length) :
    (maybe_zero_route_features v x).getD i [] =
      maskRowVariant v ((x.headD []).length) (x.getD i []) := by
  unfold maybe_zero_route_features
  exact getD_map _ x i [] [] h

theorem mask_indep (v : String) (x : List (List ℝ))
    (hx : ∀ row ∈ x, row.length = 28) (i : ℕ) (hi : i < x.length)
    (hveh : 0.5 < (x.getD i []).getD 0 0) (a b : ℝ)
    (hbr : v ∈ noRouteVariants ∨ (v ∈ routeAwareVariants ∧ v ∉ noRouteVariants)) :
    maybe_zero_route_features v
        (x.set i (((x.getD i []).set 23 a).set 24 b)) =
      maybe_zero_route_features v x := by
  have hne : x ≠ [] := by
    intro hcon
    rw [hcon] at hi
    simp at hi
  have hrl : (x.getD i []).length = 28 := hx _ (getD_mem x i [] hi)
  have hw : (x.headD []).length = 28 := headD_length_of_all x hne hx
  have hrl' : (((x.getD i []).set 23 a).set 24 b).length = 28 := by
    rw [List.length_set, List.length_set]
    exact hrl
  have hw' : (((x.set i (((x.getD i []).set 23 a).set 24 b)).headD []).length) = 28 := by
    apply headD_length_of_all
    · intro hcon
      have := congrArg List.length hcon
      simp at this
      rw [this] at hi
      simp at hi
    · intro r hr
      rcases List.mem_or_eq_of_mem_set hr with h' | h'
      · exact hx r h'
      · rw [h']
        exact hrl'
  have hveh' : 0.5 < (((x.getD i []).set 23 a).set 24 b).getD 0 0 := by
    rw [getD_set_ne _ 24 0 _ _ (by omega), getD_set_ne _ 23 0 _ _ (by omega)]
    exact hveh
  have hfr : maskRowVariant v 28 (((x.getD i []).set 23 a).set 24 b) =
      maskRowVariant v 28 (x.getD i []) := by
    rcases hbr with h | ⟨h1, h2⟩
    · rw [maskRowVariant_noRoute v h _ hveh', maskRowVariant_noRoute v h _ hveh]
      rw [zeroSlots_set_outside 10 12 24 _ b (by omega),
        zeroSlots_set_outside 10 12 23 _ a (by omega),
        zeroSlots_set_inside 20 27 24 _ b (by omega) (by omega),
        zeroSlots_set_inside 20 27 23 _ a (by omega) (by omega)]
    · rw [maskRowVariant_routeAware v h1 h2 _ hveh',
        maskRowVariant_routeAware v h1 h2 _ hveh,
        zeroSlots_set_inside 20 27 24 _ b (by omega) (by omega),
        zeroSlots_set_inside 20 27 23 _ a (by omega) (by omega)]
  unfold maybe_zero_route_features
  rw [hw, hw', List.map_set, hfr]
  exact map_set_getD_self _ x i [] hi

theorem maskCore_noRoute (v : String) (hnr : v ∈ noRouteVariants)
    (x : List (List ℝ)) (hx : ∀ row ∈ x, row.length = 28)
    (i : ℕ) (hi : i < x.length) (hveh : 0.5 < (x.getD i []).getD 0 0) :
    (∀ j, 20 ≤ j → j ≤ 26 →
      ((maybe_zero_route_features v x).getD i []).getD j 0 = 0) ∧
    ((maybe_zero_route_features v x).getD i []).getD 10 0 = 0 ∧
    ((maybe_zero_route_features v x).getD i []).getD 11 0 = 0 := by
  have hne : x ≠ [] := by
    intro hcon; rw [hcon] at hi; simp at hi
  have hrl : (x.getD i []).length = 28 := hx _ (getD_mem x i [] hi)
  have hw : (x.headD []).length = 28 := headD_length_of_all x hne hx
  have hout : (maybe_zero_route_features v x).getD i [] =
      zeroSlots 20 27 (zeroSlots 10 12 (x.getD i [])) := by
    rw [maybe_zero_getD v x i hi, hw, maskRowVariant_noRoute v hnr _ hveh]
  refine ⟨fun j hj1 hj2 => ?_, ?_, ?_⟩
  · rw [hout, getD_zeroSlots 20 27 j _ (by rw [length_zeroSlots, hrl]; omega),
      if_pos ⟨hj1, by omega⟩]
  · rw [hout, getD_zeroSlots 20 27 10 _ (by rw [length_zeroSlots, hrl]; omega),
      if_neg (by omega), getD_zeroSlots 10 12 10 _ (by rw [hrl]; omega),
      if_pos (by omega)]
  · rw [hout, getD_zeroSlots 20 27 11 _ (by rw [length_zeroSlots, hrl]; omega),
      if_neg (by omega), getD_zeroSlots 10 12 11 _ (by rw [hrl]; omega),
      if_pos (by omega)]

theorem maskCore_routeAware (v : String) (hra : v ∈ routeAwareVariants)
    (hnr : v ∉ noRouteVariants)
    (x : List (List ℝ)) (hx : ∀ row ∈ x, row.length = 28)
    (i : ℕ) (hi : i < x.length) (hveh : 0.5 < (x.getD i []).getD 0 0) :
    (∀ j, 20 ≤ j → j ≤ 26 →
      ((maybe_zero_route_features v x).getD i []).getD j 0 = 0) ∧
    ((maybe_zero_route_features v x).getD i []).getD 10 0 =
        (x.getD i []).getD 10 0 ∧
    ((maybe_zero_route_features v x).getD i []).getD 11 0 =
        (x.getD i []).getD 11 0 := by
  have hne : x ≠ [] := by
    intro hcon; rw [hcon] at hi; simp at hi
  have hrl : (x.getD i []).length = 28 := hx _ (getD_mem x i [] hi)
  have hw : (x.headD []).length = 28 := headD_length_of_all x hne hx
  have hout : (maybe_zero_route_features v x).getD i [] =
      zeroSlots 20 27 (x.getD i []) := by
    rw [maybe_zero_getD v x i hi, hw, maskRowVariant_routeAware v hra hnr _ hveh]
  refine ⟨fun j hj1 hj2 => ?_, ?_, ?_⟩
  · rw [hout, getD_zeroSlots 20 27 j _ (by rw [hrl]; omega),
      if_pos ⟨hj1, by omega⟩]
  · rw [hout, getD_zeroSlots 20 27 10 _ (by rw [hrl]; omega),
      if_neg (by omega)]
  · rw [hout, getD_zeroSlots 20 27 11 _ (by rw [hrl]; omega),
      if_neg (by omega)]

theorem edge_mask_zeroes (v : String) (hnr : v ∈ noRouteVariants)
    (ea : List (List ℝ)) (hea : ∀ r ∈ ea, r.length = 7)
    (i : ℕ) (hi : i < ea.length) :
    ((maybe_zero_edge_route_features v ea).getD i []).getD 5 0 = 0 ∧
    ((maybe_zero_edge_route_features v ea).getD i []).getD 6 0 = 0 := by
  have hne : ea ≠ [] := by
    intro hcon; rw [hcon] at hi; simp at hi
  have hrl : (ea.getD i []).length = 7 := hea _ (getD_mem ea i [] hi)
  have hw : (ea.headD []).length = 7 := headD_length_of_all ea hne hea
  have hout : (maybe_zero_edge_route_features v ea).getD i [] =
      zeroSlots 5 7 (ea.getD i []) := by
    unfold maybe_zero_edge_route_features
    rw [if_pos hnr, hw, if_pos (by norm_num)]
    exact getD_map _ ea i [] [] hi
  constructor
  · rw [hout, getD_zeroSlots 5 7 5 _ (by rw [hrl]; omega), if_pos (by omega)]
  · rw [hout, getD_zeroSlots 5 7 6 _ (by rw [hrl]; omega), if_pos (by omega)]

/-- C10: for each of the six ablation variants (the route-aware ones
included), the pre-encoding mask `_maybe_zero_route_features` zeroes vehicle
node feature slots 20–26 on every vehicle row, so the masked features — and
hence the encoder input — are independent of the per-vehicle current-edge
demand/occupancy slots 23–24 written by the Graph State Mutator; only the
non-route-aware variants additionally zero slots 10–11 (route length /
progress) and the edge-level demand/occupancy slots 5–6, while the
route-aware variants leave those untouched. -/
theorem C10_feature_mask :
    ∀ v ∈ sixVariants,
      (∀ x : List (List ℝ), (∀ row ∈ x, row.length = 28) →
        ∀ i, i < x.length → 0.5 < (x.getD i []).getD 0 0 →
          (∀ j, 20 ≤ j → j ≤ 26 →
            ((maybe_zero_route_features v x).getD i []).getD j 0 = 0) ∧
          (v ∈ routeAwareVariants →
            ((maybe_zero_route_features v x).getD i []).getD 10 0 =
                (x.getD i []).getD 10 0 ∧
              ((maybe_zero_route_features v x).getD i []).getD 11 0 =
                (x.getD i []).getD 11 0) ∧
          (v ∈ noRouteVariants →
            ((maybe_zero_route_features v x).getD i []).getD 10 0 = 0 ∧
              ((maybe_zero_route_features v x).getD i []).getD 11 0 = 0) ∧
          (∀ a b : ℝ,
            maybe_zero_route_features v
                (x.set i (((x.getD i []).set 23 a).set 24 b)) =
              maybe_zero_route_features v x)) ∧
      (v ∈ noRouteVariants →
        ∀ ea : List (List ℝ), (∀ r ∈ ea, r.length = 7) →
          ∀ i, i < ea.length →
            ((maybe_zero_edge_route_features v ea).getD i []).getD 5 0 = 0 ∧
            ((maybe_zero_edge_route_features v ea).getD i []).getD 6 0 = 0) ∧
      (v ∈ routeAwareVariants →
        ∀ ea : List (List ℝ), maybe_zero_edge_route_features v ea = ea) := by
  intro v hv
  have hbr : (v ∈ noRouteVariants ∧ v ∉ routeAwareVariants) ∨
      (v ∈ routeAwareVariants ∧ v ∉ noRouteVariants) := by
    fin_cases hv <;> simp [noRouteVariants, routeAwareVariants]
  rcases hbr with ⟨h1, h2⟩ | ⟨h1, h2⟩
  · refine ⟨fun x hx i hi hveh => ?_, fun _ => edge_mask_zeroes v h1,
      fun hra => absurd hra h2⟩
    obtain ⟨hA, hB1, hB2⟩ := maskCore_noRoute v h1 x hx i hi hveh
    exact ⟨hA, fun hra => absurd hra h2, fun _ => ⟨hB1, hB2⟩,
      fun a b => mask_indep v x hx i hi hveh a b (Or.inl h1)⟩
  · refine ⟨fun x hx i hi hveh => ?_, fun hnr => absurd hnr h2, fun _ ea => ?_⟩
    · obtain ⟨hA, hB1, hB2⟩ := maskCore_routeAware v h1 h2 x hx i hi hveh
      exact ⟨hA, fun _ => ⟨hB1, hB2⟩, fun hnr => absurd hnr h2,
        fun a b => mask_indep v x hx i hi hveh a b (Or.inr ⟨h1, h2⟩)⟩
    · unfold maybe_zero_edge_route_features
      rw [if_neg h2]

/-- Witness for C10 at the route-aware variant `temporal_route_aware` and a
single vehicle row: slot 23 (current-edge demand) is zeroed by the mask. -/
theorem C10_feature_mask_witness :
    ((maybe_zero_route_features "temporal_route_aware"
        [List.replicate 28 1]).getD 0 []).getD 23 0 = 0 := by
  have h28 : ∀ row ∈ [List.replicate 28 (1 : ℝ)], row.length = 28 := by
    intro row hr
    simp only [List.mem_singleton] at hr
    rw [hr]
    simp
  have hveh : (0.5 : ℝ) < (([List.replicate 28 (1 : ℝ)].getD 0 []).getD 0 0) := by
    norm_num [List.getD]
  exact ((C10_feature_mask "temporal_route_aware" (by simp [sixVariants])).1
    [List.replicate 28 1] h28 0 (by norm_num) hveh).1 23 (by norm_num)
    (by norm_num)

/-! ### C6: temporal window loading -/

theorem window_indices_length (W N found : ℕ) :
    (window_indices W N found).length = W := by
  unfold window_indices
  rw [List.length_map, List.length_range]

theorem window_indices_lt (W N found : ℕ) (hN : 0 < N) :
    ∀ idx ∈ window_indices W N found, idx < N := by
  intro idx h
  simp only [window_indices, List.mem_map, List.mem_range] at h
  obtain ⟨i, _, rfl⟩ := h
  have h1 : 0 ≤ ((found : ℤ) - ((W : ℤ) - 1 - (i : ℤ))) % (N : ℤ) :=
    Int.emod_nonneg _ (by exact_mod_cast hN.ne')
  have h2 : ((found : ℤ) - ((W : ℤ) - 1 - (i : ℤ))) % (N : ℤ) < (N : ℤ) :=
    Int.emod_lt_of_pos _ (by exact_mod_cast hN)
  omega

theorem mapM_window (files : List (ℕ × Snapshot)) (idxs : List ℕ)
    (h : ∀ i ∈ idxs, i < files.length) :
    (idxs.mapM (fun idx =>
      if idx < files.length then
        (pure (files.getD idx (0, default)).2 : Except Err Snapshot)
      else throw Err.indexError)) =
      Except.ok (idxs.map (fun idx => (files.getD idx (0, default)).2)) := by
  induction idxs with
  | nil => rfl
  | cons a t ih =>
    rw [List.mapM_cons, if_pos (h a (List.mem_cons_self a t)),
      ih (fun i hi => h i (List.mem_cons_of_mem a hi))]
    rfl

theorem closest_fold_invariant (steps : List ℕ) (t : ℕ) :
    ∀ n : ℕ, 0 < n →
      ∃ i m,
        (List.range n).foldl
          (fun acc i =>
            let diff := ((steps.getD i 0 : ℤ) - (t : ℤ)).natAbs
            match acc.2 with
            | none => (i, some diff)
            | some m => if diff < m then (i, some diff) else acc)
          ((0 : ℕ), (none : Option ℕ)) = (i, some m) ∧
        i < n ∧ m = ((steps.getD i 0 : ℤ) - (t : ℤ)).natAbs ∧
        ∀ j < n, m ≤ ((steps.getD j 0 : ℤ) - (t : ℤ)).natAbs := by
  intro n
  induction n with
  | zero => omega
  | succ n ih =>
    intro _
    rw [List.range_succ, List.foldl_append, List.foldl_cons, List.foldl_nil]
    by_cases hn : 0 < n
    · obtain ⟨i, m, heq, hlt, hm, hmin⟩ := ih hn
      rw [heq]
      by_cases hd : ((steps.getD n 0 : ℤ) - (t : ℤ)).natAbs < m
      · refine ⟨n, ((steps.getD n 0 : ℤ) - (t : ℤ)).natAbs, ?_, by omega,
          rfl, fun j hj => ?_⟩
        · show (if ((steps.getD n 0 : ℤ) - (t : ℤ)).natAbs < m then
              (n, some (((steps.getD n 0 : ℤ) - (t : ℤ)).natAbs))
            else (i, some m)) =
            (n, some (((steps.getD n 0 : ℤ) - (t : ℤ)).natAbs))
          rw [if_pos hd]
        · rcases Nat.lt_succ_iff_lt_or_eq.mp hj with h' | h'
          · exact le_of_lt (lt_of_lt_of_le hd (hm ▸ hmin j h'))
          · rw [h']
      · refine ⟨i, m, ?_, by omega, hm, fun j hj => ?_⟩
        · show (if ((steps.getD n 0 : ℤ) - (t : ℤ)).natAbs < m then
              (n, some (((steps.getD n 0 : ℤ) - (t : ℤ)).natAbs))
            else (i, some m)) = (i, some m)
          rw [if_neg hd]
        · rcases Nat.lt_succ_iff_lt_or_eq.mp hj with h' | h'
          · exact hmin j h'
          · rw [h']
            omega
    · have hn0 : n = 0 := by omega
      subst hn0
      refine ⟨0, ((steps.getD 0 0 : ℤ) - (t : ℤ)).natAbs, rfl, by omega, rfl,
        fun j hj => ?_⟩
      have hj0 : j = 0 := by omega
      rw [hj0]

theorem closest_file_idx_spec (steps : List ℕ) (t : ℕ) (hne : steps ≠ []) :
    closest_file_idx steps t < steps.length ∧
    ∀ j < steps.length,
      ((steps.getD (closest_file_idx steps t) 0 : ℤ) - (t : ℤ)).natAbs ≤
        ((steps.getD j 0 : ℤ) - (t : ℤ)).natAbs := by
  have hp : 0 < steps.length := List.length_pos.mpr hne
  obtain ⟨i, m, heq, hlt, hm, hmin⟩ := closest_fold_invariant steps t steps.length hp
  have hidx : closest_file_idx steps t = i := by
    unfold closest_file_idx
    rw [heq]
  rw [hidx]
  exact ⟨hlt, fun j hj => hm ▸ hmin j hj⟩

theorem window_indices_no_wrap (W N found : ℕ) (h1 : W - 1 ≤ found)
    (h2 : found < N) :
    window_indices W N found =
      (List.range W).map (fun i => found + 1 + i - W) := by
  unfold window_indices
  apply List.map_congr_left
  intro i hi
  rw [List.mem_range] at hi
  have he : ((found : ℤ) - ((W : ℤ) - 1 - (i : ℤ))) % (N : ℤ) =
      (found : ℤ) - ((W : ℤ) - 1 - (i : ℤ)) :=
    Int.emod_eq_of_lt (by omega) (by omega)
  rw [he]
  omega

theorem sorted_getD_mono (steps : List ℕ) (hs : steps.Sorted (· ≤ ·))
    (a b : ℕ) (hab : a ≤ b) (hb : b < steps.length) :
    steps.getD a 0 ≤ steps.getD b 0 := by
  rcases Nat.lt_or_ge a b with h | h
  · have hp := List.pairwise_iff_getElem.mp hs a b (by omega) hb h
    have ha : steps.getD a 0 = steps[a] := by
      simp [List.getD, List.getElem?_eq_getElem (show a < steps.length by omega)]
    have hbb : steps.getD b 0 = steps[b] := by
      simp [List.getD, List.getElem?_eq_getElem hb]
    rw [ha, hbb]
    exact hp
  · have : a = b := by omega
    rw [this]

/-- C6 counterexample: with three snapshot files of steps `0, 10, 20`, window
size 2 and target time 0, the loader picks the step-0 file and wraps, so the
returned window is `[step-20 snapshot, step-0 snapshot]` — exactly `W`
frames, but the step-20 capture precedes the step-0 capture in the output,
which is not chronological order. -/
theorem C6_window_counterexample :
    load_temporal_window 2 [(0, snapStepA), (10, snapStepB), (20, snapStepC)] 0 =
      Except.ok [snapStepC, snapStepA] ∧ snapStepC ≠ snapStepA := by
  constructor
  · rfl
  · intro h
    have := congrArg Snapshot.vehicle_ids h
    simp [snapStepA, snapStepC] at this

/-- C6 amended: an empty snapshot directory fails with the NotFound error;
otherwise the loader returns exactly `W` snapshots, namely the files at the
wrap-around indices `(found - (W-1-i)) mod N`, where `found` is the first
index whose embedded step number is closest to the target; and the window is
in chronological order whenever it does not wrap (`W - 1 ≤ found`) — a
wrapped window instead starts with frames from the end of the dataset. -/
theorem C6_window_amended :
    (∀ (W t : ℕ), load_temporal_window W ([] : List (ℕ × Snapshot)) t =
      Except.error Err.fileNotFound) ∧
    (∀ (W t : ℕ) (files : List (ℕ × Snapshot)), files ≠ [] →
      ∃ out, load_temporal_window W files t = Except.ok out ∧
        out.length = W ∧
        out = (window_indices W files.length
            (closest_file_idx (files.map (fun f => f.1)) t)).map
            (fun idx => (files.getD idx (0, default)).2)) ∧
    (∀ (t : ℕ) (files : List (ℕ × Snapshot)), files ≠ [] →
      ∀ j < files.length,
        ((((files.map (fun f => f.1)).getD
            (closest_file_idx (files.map (fun f => f.1)) t) 0 : ℕ) : ℤ) -
            (t : ℤ)).natAbs ≤
          ((((files.map (fun f => f.1)).getD j 0 : ℕ) : ℤ) - (t : ℤ)).natAbs) ∧
    (∀ (W t : ℕ) (files : List (ℕ × Snapshot)), files ≠ [] →
      (files.map (fun f => f.1)).Sorted (· ≤ ·) →
      W - 1 ≤ closest_file_idx (files.map (fun f => f.1)) t →
      ((window_indices W files.length
          (closest_file_idx (files.map (fun f => f.1)) t)).map
          (fun idx => (files.getD idx (0, default)).1)).Sorted (· ≤ ·)) := by
  refine ⟨fun W t => rfl, fun W t files hne => ?_, fun t files hne => ?_, ?_⟩
  · have hN : 0 < files.length := List.length_pos.mpr hne
    refine ⟨_, ?_, ?_, rfl⟩
    · unfold load_temporal_window
      rw [if_neg (by simpa [List.isEmpty_iff] using hne)]
      exact mapM_window files _ (window_indices_lt _ _ _ hN)
    · rw [List.length_map, window_indices_length]
  · have hne' : files.map (fun f => f.1) ≠ [] := by
      simpa using hne
    have hspec := closest_file_idx_spec (files.map (fun f => f.1)) t hne'
    intro j hj
    exact hspec.2 j (by simpa using hj)
  · intro W t files hne hs hnw
    have hne' : files.map (fun f => f.1) ≠ [] := by simpa using hne
    have hspec := closest_file_idx_spec (files.map (fun f => f.1)) t hne'
    have hfd : closest_file_idx (files.map (fun f => f.1)) t < files.length := by
      simpa using hspec.1
    rw [window_indices_no_wrap W files.length _ hnw hfd, List.map_map]
    refine List.pairwise_iff_getElem.mpr ?_
    intro a b ha hb hab
    simp only [List.length_map, List.length_range] at ha hb
    simp only [List.getElem_map, List.getElem_range, Function.comp]
    have h1 : (files.getD
        (closest_file_idx (files.map (fun f => f.1)) t + 1 + a - W)
        (0, default)).1 =
        (files.map (fun f => f.1)).getD
          (closest_file_idx (files.map (fun f => f.1)) t + 1 + a - W) 0 :=
      (getD_map (fun f => f.1) files _ 0 (0, default) (by omega)).symm
    have h2 : (files.getD
        (closest_file_idx (files.map (fun f => f.1)) t + 1 + b - W)
        (0, default)).1 =
        (files.map (fun f => f.1)).getD
          (closest_file_idx (files.map (fun f => f.1)) t + 1 + b - W) 0 :=
      (getD_map (fun f => f.1) files _ 0 (0, default) (by omega)).symm
    rw [h1, h2]
    exact sorted_getD_mono _ hs _ _ (by omega) (by rw [List.length_map]; omega)

/-- Witness for C6 amended: three files with steps `0, 10, 20`, window size 2,
target 21 — the loader returns the (non-wrapped) two latest frames, and their
step sequence is chronological. -/
theorem C6_window_amended_witness :
    (∃ out,
      load_temporal_window 2 [(0, snapStepA), (10, snapStepB), (20, snapStepC)] 21 =
        Except.ok out ∧ out.length = 2 ∧
        out = (window_indices 2
            [(0, snapStepA), (10, snapStepB), (20, snapStepC)].length
            (closest_file_idx
              ([(0, snapStepA), (10, snapStepB), (20, snapStepC)].map
                (fun f => f.1)) 21)).map
            (fun idx =>
              ([(0, snapStepA), (10, snapStepB), (20, snapStepC)].getD idx
                (0, default)).2)) ∧
    ((window_indices 2
        [(0, snapStepA), (10, snapStepB), (20, snapStepC)].length
        (closest_file_idx
          ([(0, snapStepA), (10, snapStepB), (20, snapStepC)].map
            (fun f => f.1)) 21)).map
        (fun idx =>
          ([(0, snapStepA), (10, snapStepB), (20, snapStepC)].getD idx
            (0, default)).1)).Sorted (· ≤ ·) := by
  constructor
  · exact C6_window_amended.2.1 2 21
      [(0, snapStepA), (10, snapStepB), (20, snapStepC)] (by simp)
  · exact C6_window_amended.2.2.2 2 21
      [(0, snapStepA), (10, snapStepB), (20, snapStepC)] (by simp)
      (by decide) (by decide)

/-! ### Machinery for `add_vehicle_to_last_snapshot` -/

theorem pyIndexOf_spec (l : List String) (e : String) :
    ∀ i, pyIndexOf l e = some i → i < l.length ∧ l.getD i "" = e := by
  induction l with
  | nil => intro i h; simp [pyIndexOf] at h
  | cons a t ih =>
    intro i h
    rw [pyIndexOf] at h
    by_cases ha : a = e
    · rw [if_pos ha] at h
      cases h
      exact ⟨by simp, ha⟩
    · rw [if_neg ha] at h
      cases hp : pyIndexOf t e with
      | none => rw [hp] at h; simp at h
      | some j =>
        rw [hp] at h
        have h2 : j + 1 = i := by simpa using h
        obtain ⟨hj1, hj2⟩ := ih j hp
        subst h2
        exact ⟨by simpa using hj1, hj2⟩

theorem pyIndexOf_isSome_of_mem (l : List String) (e : String) (h : e ∈ l) :
    ∃ i, pyIndexOf l e = some i := by
  induction l with
  | nil => simp at h
  | cons a t ih =>
    by_cases ha : a = e
    · exact ⟨0, by rw [pyIndexOf, if_pos ha]⟩
    · have ht : e ∈ t := by
        rcases List.mem_cons.mp h with h' | h'
        · exact absurd h'.symm ha
        · exact h'
      obtain ⟨i, hi⟩ := ih ht
      exact ⟨i + 1, by rw [pyIndexOf, if_neg ha, hi]; rfl⟩

theorem setEdgeAttr_x (s : Snapshot) (i k : ℕ) (v : ℝ) :
    (setEdgeAttr s i k v).x = s.x := rfl

theorem setEdgeAttr_edge_ids (s : Snapshot) (i k : ℕ) (v : ℝ) :
    (setEdgeAttr s i k v).edge_ids = s.edge_ids := rfl

theorem setEdgeAttr_fields (s : Snapshot) (i k : ℕ) (v : ℝ) :
    (setEdgeAttr s i k v).junction_ids = s.junction_ids ∧
    (setEdgeAttr s i k v).vehicle_ids = s.vehicle_ids ∧
    (setEdgeAttr s i k v).vehicle_route_left = s.vehicle_route_left ∧
    (setEdgeAttr s i k v).vehicle_route_left_splits = s.vehicle_route_left_splits ∧
    (setEdgeAttr s i k v).current_vehicle_current_edges =
      s.current_vehicle_current_edges ∧
    (setEdgeAttr s i k v).current_vehicle_position_on_edges =
      s.current_vehicle_position_on_edges :=
  ⟨rfl, rfl, rfl, rfl, rfl, rfl⟩

theorem setEdgeAttr_length (s : Snapshot) (i k : ℕ) (v : ℝ) :
    (setEdgeAttr s i k v).edges.length = s.edges.length := by
  unfold setEdgeAttr
  exact List.length_set _ _ _

theorem setEdgeAttr_getD_ne (s : Snapshot) (i k : ℕ) (v : ℝ) (j : ℕ)
    (h : j ≠ i) :
    (setEdgeAttr s i k v).edges.getD j default = s.edges.getD j default := by
  unfold setEdgeAttr
  exact getD_set_ne _ i j _ _ (fun hc => h hc.symm)

theorem setEdgeAttr_getD_eq (s : Snapshot) (i k : ℕ) (v : ℝ)
    (h : i < s.edges.length) :
    (setEdgeAttr s i k v).edges.getD i default =
      { s.edges.getD i default with
          attr := (s.edges.getD i default).attr.set k v } := by
  unfold setEdgeAttr
  simp [List.getD, List.getElem?_set, h]

theorem getD_set_self {α : Type _} (l : List α) (k : ℕ) (v d : α)
    (h : k < l.length) : (l.set k v).getD k d = v := by
  simp [List.getD, List.getElem?_set, h]

theorem getD_eq_default {α : Type _} (l : List α) (j : ℕ) (d : α)
    (h : l.length ≤ j) : l.getD j d = d := by
  simp [List.getD, List.getElem?_eq_none h]

theorem sync_ok (li : ℕ) (v : ℝ) (idxs : List ℕ) :
    ∀ s : Snapshot,
    (∀ i ∈ idxs, i < s.current_vehicle_current_edges.length) →
    (∀ row ∈ s.x, row.length = 28) →
    ∃ s', sync_vehicle_demand li (some v) s idxs = Except.ok s' ∧
      s'.edges = s.edges ∧ s'.edge_ids = s.edge_ids ∧
      s'.junction_ids = s.junction_ids ∧ s'.vehicle_ids = s.vehicle_ids ∧
      s'.vehicle_route_left = s.vehicle_route_left ∧
      s'.vehicle_route_left_splits = s.vehicle_route_left_splits ∧
      s'.current_vehicle_current_edges = s.current_vehicle_current_edges ∧
      s'.current_vehicle_position_on_edges =
        s.current_vehicle_position_on_edges ∧
      s'.x.length = s.x.length ∧ (∀ row ∈ s'.x, row.length = 28) := by
  induction idxs with
  | nil =>
    intro s _ hrow
    exact ⟨s, rfl, rfl, rfl, rfl, rfl, rfl, rfl, rfl, rfl, rfl, hrow⟩
  | cons i rest ih =>
    intro s hidx hrow
    rw [sync_vehicle_demand, if_pos (hidx i (List.mem_cons_self i rest))]
    have hrest : ∀ j ∈ rest, j < s.current_vehicle_current_edges.length :=
      fun j hj => hidx j (List.mem_cons_of_mem i hj)
    by_cases hcond : s.current_vehicle_current_edges.getD i 0 = li
    · rw [if_pos hcond]
      by_cases hxl : i < s.x.length
      · rw [if_pos hxl,
          if_pos (by rw [hrow _ (getD_mem s.x i [] hxl)]; omega)]
        obtain ⟨s', hs', he, hei, hj, hv, hr, hrs, hc, hp, hxlen, hx28⟩ :=
          ih { s with x := s.x.set i ((s.x.getD i []).set 23 v) }
            hrest
            (by
              intro row hr
              rcases List.mem_or_eq_of_mem_set hr with h' | h'
              · exact hrow row h'
              · rw [h', List.length_set]
                exact hrow _ (getD_mem s.x i [] hxl))
        refine ⟨s', hs', he, hei, hj, hv, hr, hrs, hc, hp, ?_, hx28⟩
        rw [hxlen]
        exact List.length_set _ _ _
      · rw [if_neg hxl]
        exact ih s hrest hrow
    · rw [if_neg hcond]
      exact ih s hrest hrow

theorem route_loop_ok (stt : Stats) (orig : String → Option ℝ)
    (es : List String) :
    ∀ (s : Snapshot) (li : ℕ) (lv : Option ℝ),
    (∀ e ∈ es, e ∈ s.edge_ids) →
    s.edge_ids.length ≤ s.edges.length →
    (∀ ed ∈ s.edges, ed.attr.length = 7) →
    s.vehicle_ids.length ≤ s.current_vehicle_current_edges.length →
    (∀ row ∈ s.x, row.length = 28) →
    ∃ out : Snapshot × ℕ × Option ℝ,
      route_demand_loop stt orig s li lv es = Except.ok out ∧
      out.1.edge_ids = s.edge_ids ∧
      out.1.junction_ids = s.junction_ids ∧
      out.1.vehicle_ids = s.vehicle_ids ∧
      out.1.vehicle_route_left = s.vehicle_route_left ∧
      out.1.vehicle_route_left_splits = s.vehicle_route_left_splits ∧
      out.1.current_vehicle_current_edges = s.current_vehicle_current_edges ∧
      out.1.current_vehicle_position_on_edges =
        s.current_vehicle_position_on_edges ∧
      out.1.x.length = s.x.length ∧ (∀ row ∈ out.1.x, row.length = 28) ∧
      out.1.edges.length = s.edges.length ∧
      (∀ ed ∈ out.1.edges, ed.attr.length = 7) ∧
      (∀ j, (out.1.edges.getD j default).src = (s.edges.getD j default).src ∧
            (out.1.edges.getD j default).dst = (s.edges.getD j default).dst ∧
            (out.1.edges.getD j default).ety = (s.edges.getD j default).ety) ∧
      (∀ j k, k ≠ 5 → (out.1.edges.getD j default).attr.getD k 0 =
            (s.edges.getD j default).attr.getD k 0) ∧
      (∀ j, j < s.edges.length →
        (out.1.edges.getD j default).attr.getD 5 0 =
          if ∃ e ∈ es, pyIndexOf s.edge_ids e = some j then
            normalize_edge_demand stt
              ((denormalize_edge_demand stt
                ((orig (s.edge_ids.getD j "")).getD 0) + 1 : ℤ) : ℝ)
          else (s.edges.getD j default).attr.getD 5 0) := by
  induction es with
  | nil =>
    intro s li lv _ _ hattr _ hrow
    refine ⟨(s, li, lv), rfl, rfl, rfl, rfl, rfl, rfl, rfl, rfl, rfl, hrow,
      rfl, hattr, fun j => ⟨rfl, rfl, rfl⟩, fun j k _ => rfl, fun j _ => ?_⟩
    rw [if_neg]
    rintro ⟨e, he, -⟩
    exact List.not_mem_nil e he
  | cons e rest ih =>
    intro s li lv hes hlen hattr hveh hrow
    have he : e ∈ s.edge_ids := hes e (List.mem_cons_self e rest)
    obtain ⟨i, hi⟩ := pyIndexOf_isSome_of_mem _ _ he
    obtain ⟨hilen, hgetDi⟩ := pyIndexOf_spec _ _ i hi
    have hie : i < s.edges.length := lt_of_lt_of_le hilen hlen
    have hattr7 : (s.edges.getD i default).attr.length = 7 :=
      hattr _ (getD_mem s.edges i default hie)
    rw [route_demand_loop]
    simp only [hi]
    rw [if_pos hie, if_pos (by rw [hattr7]; omega)]
    set nv := normalize_edge_demand stt
      ((denormalize_edge_demand stt ((orig e).getD 0) + 1 : ℤ) : ℝ) with hnv
    set s1 := setEdgeAttr s i 5 nv with hs1
    have hs1attr : ∀ ed ∈ s1.edges, ed.attr.length = 7 := by
      intro ed hed
      rcases List.mem_or_eq_of_mem_set hed with h' | h'
      · exact hattr ed h'
      · rw [h', List.length_set]
        exact hattr7
    obtain ⟨s2, hs2, h2e, h2ei, h2j, h2v, h2r, h2rs, h2c, h2p, h2xl, h2x28⟩ :=
      sync_ok i nv (List.range s1.vehicle_ids.length) s1
        (by
          intro j hj
          rw [List.mem_range] at hj
          have hveq : s1.vehicle_ids = s.vehicle_ids := rfl
          rw [hveq] at hj
          show j < s.current_vehicle_current_edges.length
          omega)
        (by
          show ∀ row ∈ s.x, row.length = 28
          exact hrow)
    obtain ⟨out, hout, hoei, hoj, hov, hor, hors, hoc, hop, hoxl, hox28,
        hoelen, hoattr, hoproj, hok, ho5⟩ :=
      ih s2 i (some nv)
        (by
          intro e' he'
          rw [h2ei]
          show e' ∈ s.edge_ids
          exact hes e' (List.mem_cons_of_mem e he'))
        (by
          rw [h2ei, h2e]
          show s.edge_ids.length ≤ s1.edges.length
          rw [hs1, setEdgeAttr_length]
          exact hlen)
        (by rw [h2e]; exact hs1attr)
        (by
          rw [h2v, h2c]
          show s.vehicle_ids.length ≤ s.current_vehicle_current_edges.length
          exact hveh)
        h2x28
    have h1len : s1.edges.length = s.edges.length := setEdgeAttr_length s i 5 nv
    have hgetD1 : ∀ j, j ≠ i →
        s1.edges.getD j default = s.edges.getD j default := fun j hj =>
      setEdgeAttr_getD_ne s i 5 nv j hj
    have hgetD1i : s1.edges.getD i default =
        { s.edges.getD i default with
            attr := (s.edges.getD i default).attr.set 5 nv } :=
      setEdgeAttr_getD_eq s i 5 nv hie
    refine ⟨out, ?_, ?_, ?_, ?_, ?_, ?_, ?_, ?_, ?_, hox28, ?_, hoattr,
      ?_, ?_, ?_⟩
    · rw [hs2]
      exact hout
    · rw [hoei, h2ei]
      exact rfl
    · rw [hoj, h2j]
      exact rfl
    · rw [hov, h2v]
      exact rfl
    · rw [hor, h2r]
      exact rfl
    · rw [hors, h2rs]
      exact rfl
    · rw [hoc, h2c]
      exact rfl
    · rw [hop, h2p]
      exact rfl
    · rw [hoxl, h2xl]
      exact rfl
    · rw [hoelen, h2e, h1len]
    · intro j
      obtain ⟨hp1, hp2, hp3⟩ := hoproj j
      rw [hp1, hp2, hp3, h2e]
      by_cases hj : j = i
      · subst hj
        rw [hgetD1i]
        exact ⟨rfl, rfl, rfl⟩
      · rw [hgetD1 j hj]
        exact ⟨rfl, rfl, rfl⟩
    · intro j k hk
      rw [hok j k hk, h2e]
      by_cases hj : j = i
      · subst hj
        rw [hgetD1i]
        show ((s.edges.getD j default).attr.set 5 nv).getD k 0 =
          (s.edges.getD j default).attr.getD k 0
        exact getD_set_ne _ 5 k _ _ (fun hc => hk hc.symm)
      · rw [hgetD1 j hj]
    · intro j hjlen
      have hjlen2 : j < s2.edges.length := by
        rw [h2e, h1len]
        exact hjlen
      rw [ho5 j hjlen2, h2ei, h2e,
        show s1.edge_ids = s.edge_ids from rfl]
      by_cases hrest : ∃ e' ∈ rest, pyIndexOf s.edge_ids e' = some j
      · have hc : ∃ e' ∈ e :: rest, pyIndexOf s.edge_ids e' = some j := by
          obtain ⟨e', h1', h2'⟩ := hrest
          exact ⟨e', List.mem_cons_of_mem e h1', h2'⟩
        rw [if_pos hrest, if_pos hc]
      · rw [if_neg hrest]
        by_cases hj : j = i
        · subst hj
          rw [hgetD1i]
          show ((s.edges.getD j default).attr.set 5 nv).getD 5 0 = _
          rw [getD_set_self _ 5 nv 0 (by rw [hattr7]; omega)]
          rw [if_pos (show ∃ e' ∈ e :: rest, pyIndexOf s.edge_ids e' = some j
            from ⟨e, List.mem_cons_self e rest, hi⟩)]
          rw [hgetDi]
        · rw [hgetD1 j hj, if_neg]
          rintro ⟨e', he', hide'⟩
          rcases List.mem_cons.mp he' with h' | h'
          · subst h'
            rw [hi] at hide'
            exact hj (by injection hide'; omega)
          · exact hrest ⟨e', h', hide'⟩

theorem construct_dynamic_edges_fst (s : Snapshot) (n : ℕ) :
    ∃ keep : EdgeRec → Bool,
      ((construct_dynamic_edges s n).1.x = s.x ∧
       (construct_dynamic_edges s n).1.edge_ids = s.edge_ids ∧
       (construct_dynamic_edges s n).1.junction_ids = s.junction_ids ∧
       (construct_dynamic_edges s n).1.vehicle_ids = s.vehicle_ids ∧
       (construct_dynamic_edges s n).1.vehicle_route_left =
         s.vehicle_route_left ∧
       (construct_dynamic_edges s n).1.vehicle_route_left_splits =
         s.vehicle_route_left_splits ∧
       (construct_dynamic_edges s n).1.current_vehicle_current_edges =
         s.current_vehicle_current_edges ∧
       (construct_dynamic_edges s n).1.current_vehicle_position_on_edges =
         s.current_vehicle_position_on_edges ∧
       (construct_dynamic_edges s n).1.edges = s.edges.filter keep) ∧
      ∀ ed, keep ed = false → ed.ety = 1 := by
  simp only [construct_dynamic_edges]
  repeat' split
  all_goals
    first
      | exact ⟨fun _ => true,
          ⟨rfl, rfl, rfl, rfl, rfl, rfl, rfl, rfl,
            (List.filter_true s.edges).symm⟩,
          fun ed h => by simp at h⟩
      | exact ⟨_,
          ⟨rfl, rfl, rfl, rfl, rfl, rfl, rfl, rfl, rfl⟩,
          fun ed h => by
            simp only [decide_eq_false_iff_not, not_not] at h
            exact h.2.2⟩

theorem mkOrig_not_mem (snap : Snapshot) (t : List String)
    (m : String → Option ℝ) (e : String) (he : e ∉ t) :
    (t.foldl
      (fun m e =>
        match pyIndexOf snap.edge_ids e with
        | some i =>
            fun k =>
              if k = e then some (((snap.edges.getD i default).attr).getD 5 0)
              else m k
        | none => m) m) e = m e := by
  induction t generalizing m with
  | nil => rfl
  | cons a t ih =>
    have hea : e ≠ a := fun hc => he (hc ▸ List.mem_cons_self a t)
    have het : e ∉ t := fun hc => he (List.mem_cons_of_mem a hc)
    rw [List.foldl_cons]
    rw [ih _ het]
    cases hp : pyIndexOf snap.edge_ids a with
    | none => rfl
    | some i => simp [hea]

theorem mkOrig_found_aux (snap : Snapshot) (route : List String) :
    ∀ (m : String → Option ℝ) (e : String) (i : ℕ), e ∈ route →
    pyIndexOf snap.edge_ids e = some i →
    (route.foldl
      (fun m e =>
        match pyIndexOf snap.edge_ids e with
        | some i =>
            fun k =>
              if k = e then some (((snap.edges.getD i default).attr).getD 5 0)
              else m k
        | none => m) m) e =
      some (((snap.edges.getD i default).attr).getD 5 0) := by
  induction route with
  | nil => intro m e i he _; simp at he
  | cons a t ih =>
    intro m e i he hi
    rw [List.foldl_cons]
    by_cases het : e ∈ t
    · exact ih _ e i het hi
    · have hea : e = a := by
        rcases List.mem_cons.mp he with h' | h'
        · exact h'
        · exact absurd h' het
      subst hea
      rw [mkOrig_not_mem snap t _ e het, hi]
      simp

theorem mkOriginalDemands_found (snap : Snapshot) (route : List String)
    (e : String) (i : ℕ) (he : e ∈ route)
    (hi : pyIndexOf snap.edge_ids e = some i) :
    mkOriginalDemands snap route e =
      some (((snap.edges.getD i default).attr).getD 5 0) :=
  mkOrig_found_aux snap route _ e i he hi

theorem append_route_and_ids_spec (r : VehicleReq) (s2 : Snapshot) :
    (append_route_and_ids r s2).x = s2.x ∧
    (append_route_and_ids r s2).edges = s2.edges ∧
    (append_route_and_ids r s2).edge_ids = s2.edge_ids ∧
    (append_route_and_ids r s2).junction_ids = s2.junction_ids ∧
    (append_route_and_ids r s2).vehicle_ids = s2.vehicle_ids ++ [r.veh_id] ∧
    (append_route_and_ids r s2).vehicle_route_left_splits =
      s2.vehicle_route_left_splits ++ [r.route_edges.length] :=
  ⟨rfl, rfl, rfl, rfl, rfl, rfl⟩

theorem if_isEmpty_append (t : Snapshot) (dyn : List EdgeRec) :
    (if dyn.isEmpty then t else { t with edges := t.edges ++ dyn }) =
      { t with edges := t.edges ++ dyn } := by
  cases dyn with
  | nil => simp
  | cons a l => rfl

theorem append_new_vehicle_spec (st : Stats) (r : VehicleReq) (d o : ℝ)
    (s2 : Snapshot) :
    ∃ keep : EdgeRec → Bool,
      (append_new_vehicle st r d o s2).x =
        s2.x ++ [mkVehicleFeatures st r d o] ∧
      (append_new_vehicle st r d o s2).vehicle_ids =
        s2.vehicle_ids ++ [r.veh_id] ∧
      (append_new_vehicle st r d o s2).vehicle_route_left_splits =
        s2.vehicle_route_left_splits ++ [r.route_edges.length] ∧
      (append_new_vehicle st r d o s2).edge_ids = s2.edge_ids ∧
      (append_new_vehicle st r d o s2).edges =
        s2.edges.filter keep ++
          (construct_dynamic_edges (append_route_and_ids r s2)
            s2.vehicle_ids.length).2 ∧
      (∀ ed, keep ed = false → ed.ety = 1) := by
  obtain ⟨keep, ⟨hx, hei, hj, hv, hr, hrs, hc, hp, hedges⟩, hke⟩ :=
    construct_dynamic_edges_fst (append_route_and_ids r s2)
      s2.vehicle_ids.length
  obtain ⟨ax, ae, aei, aj, av, ars⟩ := append_route_and_ids_spec r s2
  have key : append_new_vehicle st r d o s2 =
      { (construct_dynamic_edges (append_route_and_ids r s2)
          s2.vehicle_ids.length).1 with
        edges := (construct_dynamic_edges (append_route_and_ids r s2)
            s2.vehicle_ids.length).1.edges ++
          (construct_dynamic_edges (append_route_and_ids r s2)
            s2.vehicle_ids.length).2,
        x := (construct_dynamic_edges (append_route_and_ids r s2)
            s2.vehicle_ids.length).1.x ++ [mkVehicleFeatures st r d o] } := by
    simp only [append_new_vehicle]
    rw [if_isEmpty_append]
  refine ⟨keep, ?_, ?_, ?_, ?_, ?_, hke⟩ <;> rw [key]
  · show (construct_dynamic_edges (append_route_and_ids r s2)
        s2.vehicle_ids.length).1.x ++ [mkVehicleFeatures st r d o] =
      s2.x ++ [mkVehicleFeatures st r d o]
    rw [hx, ax]
  · show (construct_dynamic_edges (append_route_and_ids r s2)
        s2.vehicle_ids.length).1.vehicle_ids = s2.vehicle_ids ++ [r.veh_id]
    rw [hv, av]
  · show (construct_dynamic_edges (append_route_and_ids r s2)
        s2.vehicle_ids.length).1.vehicle_route_left_splits =
      s2.vehicle_route_left_splits ++ [r.route_edges.length]
    rw [hrs, ars]
  · show (construct_dynamic_edges (append_route_and_ids r s2)
        s2.vehicle_ids.length).1.edge_ids = s2.edge_ids
    rw [hei, aei]
  · show (construct_dynamic_edges (append_route_and_ids r s2)
        s2.vehicle_ids.length).1.edges ++
        (construct_dynamic_edges (append_route_and_ids r s2)
          s2.vehicle_ids.length).2 =
      s2.edges.filter keep ++
        (construct_dynamic_edges (append_route_and_ids r s2)
          s2.vehicle_ids.length).2
    rw [hedges, ae]

theorem denormalize_edge_demand_nonneg (st : Stats) (x : ℝ) :
    0 ≤ denormalize_edge_demand st x :=
  le_max_left 0 _

theorem setEdgeAttr_attr7 (s : Snapshot) (i k : ℕ) (v : ℝ)
    (hi : i < s.edges.length)
    (h : ∀ ed ∈ s.edges, ed.attr.length = 7) :
    ∀ ed ∈ (setEdgeAttr s i k v).edges, ed.attr.length = 7 := by
  intro ed hed
  rcases List.mem_or_eq_of_mem_set hed with h' | h'
  · exact h ed h'
  · rw [h']
    show ((s.edges.getD i default).attr.set k v).length = 7
    rw [List.length_set]
    exact h _ (getD_mem s.edges i default hi)

theorem setEdgeAttr_ety (s : Snapshot) (i k : ℕ) (v : ℝ) (j : ℕ)
    (hi : i < s.edges.length) :
    ((setEdgeAttr s i k v).edges.getD j default).ety =
      (s.edges.getD j default).ety := by
  by_cases hj : j = i
  · subst hj
    rw [setEdgeAttr_getD_eq s j k v hi]
  · rw [setEdgeAttr_getD_ne s i k v j hj]

theorem setEdgeAttr_attr_get (s : Snapshot) (i k : ℕ) (v : ℝ)
    (hi : i < s.edges.length) :
    ((setEdgeAttr s i k v).edges.getD i default).attr =
      (s.edges.getD i default).attr.set k v := by
  rw [setEdgeAttr_getD_eq s i k v hi]

theorem getD_append_left {α : Type _} (l1 l2 : List α) (i : ℕ) (d : α)
    (h : i < l1.length) : (l1 ++ l2).getD i d = l1.getD i d := by
  simp [List.getD, List.getElem?_append_left h]

theorem filter_getD_prefix (keep : EdgeRec → Bool) :
    ∀ (l : List EdgeRec) (k : ℕ), k ≤ l.length →
    (∀ j, j < k → keep (l.getD j default) = true) →
    k ≤ (l.filter keep).length ∧
    ∀ j, j < k → (l.filter keep).getD j default = l.getD j default := by
  intro l
  induction l with
  | nil =>
    intro k hk _
    exact ⟨by simpa using hk, fun j hj => by
      simp at hk
      omega⟩
  | cons a t ih =>
    intro k hk hkeep
    cases k with
    | zero => exact ⟨by omega, fun j hj => by omega⟩
    | succ k' =>
      have ha : keep a = true := by
        have := hkeep 0 (by omega)
        simpa [List.getD] using this
      rw [List.filter_cons_of_pos ha]
      obtain ⟨ih1, ih2⟩ := ih k' (by simpa using hk)
        (fun j hj => by
          have := hkeep (j + 1) (by omega)
          simpa [List.getD] using this)
      constructor
      · simpa using ih1
      · intro j hj
        cases j with
        | zero => rfl
        | succ j' =>
          show (t.filter keep).getD j' default = t.getD j' default
          exact ih2 j' (by omega)

theorem getLastD_append_singleton {α : Type _} (l : List α) (a d : α) :
    (l ++ [a]).getLastD d = a := by
  induction l generalizing d with
  | nil => rfl
  | cons b t ih =>
    rw [List.cons_append, List.getLastD_cons]
    exact ih b

theorem get_current_edge_features_found (snap : Snapshot) (eid : String)
    (i : ℕ) (h : pyIndexOf snap.edge_ids eid = some i) :
    get_current_edge_features snap eid =
      (((snap.edges.getD i default).attr).getD 5 0,
       ((snap.edges.getD i default).attr).getD 6 0,
       ((snap.edges.getD i default).attr).getD 0 0) := by
  unfold get_current_edge_features
  rw [h]

theorem denorm_updated_current_demand (st : Stats) (snap : Snapshot)
    (r : VehicleReq) (hstd : st.demand_log_std ≠ 0) :
    denormalize_edge_demand st (updated_current_demand st snap r) =
      denormalize_edge_demand st
        (get_current_edge_features snap r.current_edge_id).1 + 1 := by
  unfold updated_current_demand
  exact denormalize_normalize_edge_demand st hstd _
    (by
      have := denormalize_edge_demand_nonneg st
        (get_current_edge_features snap r.current_edge_id).1
      omega)

theorem denorm_original_demands (st : Stats) (snap : Snapshot)
    (r : VehicleReq) (hstd : st.demand_log_std ≠ 0) (e : String)
    (he : e ∈ r.route_edges) (i : ℕ)
    (hi : pyIndexOf snap.edge_ids e = some i) :
    denormalize_edge_demand st ((original_demands st snap r e).getD 0) =
      denormalize_edge_demand st
        ((snap.edges.getD i default).attr.getD 5 0) := by
  unfold original_demands
  by_cases hcr : r.current_edge_id ∈ r.route_edges
  · rw [if_pos hcr]
    by_cases hec : e = r.current_edge_id
    · show denormalize_edge_demand st
        ((if e = r.current_edge_id then
            some (normalize_edge_demand st
              ((denormalize_edge_demand st
                (updated_current_demand st snap r) - 1 : ℤ) : ℝ))
          else mkOriginalDemands snap r.route_edges e).getD 0) = _
      rw [if_pos hec, Option.getD_some]
      have hmem : r.current_edge_id ∈ snap.edge_ids := by
        rw [← hec]
        have hsp := pyIndexOf_spec snap.edge_ids e i hi
        rw [← hsp.2]
        exact getD_mem snap.edge_ids i "" hsp.1
      obtain ⟨eIdx, heq⟩ :=
        pyIndexOf_isSome_of_mem snap.edge_ids r.current_edge_id hmem
      have hieq : i = eIdx := by
        rw [hec] at hi
        rw [hi] at heq
        exact Option.some_inj.mp heq
      have hud := denorm_updated_current_demand st snap r hstd
      have hnn := denormalize_edge_demand_nonneg st
        (get_current_edge_features snap r.current_edge_id).1
      have hrt := denormalize_normalize_edge_demand st hstd
        (denormalize_edge_demand st (updated_current_demand st snap r) - 1)
        (by omega)
      have hfst : (get_current_edge_features snap r.current_edge_id).1 =
          (snap.edges.getD eIdx default).attr.getD 5 0 := by
        rw [get_current_edge_features_found snap r.current_edge_id eIdx heq]
      rw [hrt, hud, hfst, hieq]
      omega
    · show denormalize_edge_demand st
        ((if e = r.current_edge_id then
            some (normalize_edge_demand st
              ((denormalize_edge_demand st
                (updated_current_demand st snap r) - 1 : ℤ) : ℝ))
          else mkOriginalDemands snap r.route_edges e).getD 0) = _
      rw [if_neg hec, mkOriginalDemands_found snap r.route_edges e i he hi,
        Option.getD_some]
  · rw [if_neg hcr, mkOriginalDemands_found snap r.route_edges e i he hi,
      Option.getD_some]

theorem add_vehicle_spec (st : Stats) (snap : Snapshot) (r : VehicleReq)
    (hstd : st.demand_log_std ≠ 0)
    (hcur : r.current_edge_id ∈ snap.edge_ids)
    (hroute : ∀ e ∈ r.route_edges, e ∈ snap.edge_ids)
    (hlen : snap.edge_ids.length ≤ snap.edges.length)
    (hattr : ∀ ed ∈ snap.edges, ed.attr.length = 7)
    (hveh : snap.vehicle_ids.length ≤
      snap.current_vehicle_current_edges.length)
    (hrow : ∀ row ∈ snap.x, row.length = 28)
    (hstatic : ∀ j, j < snap.edge_ids.length →
      (snap.edges.getD j default).ety = 0) :
    ∃ s', add_vehicle_to_last_snapshot st snap r = Except.ok s' ∧
      s'.x.length = snap.x.length + 1 ∧
      s'.x.getLastD [] = mkVehicleFeatures st r
        (updated_current_demand st snap r)
        (updated_current_occupancy st snap r) ∧
      s'.vehicle_ids = snap.vehicle_ids ++ [r.veh_id] ∧
      s'.vehicle_route_left_splits.length =
        snap.vehicle_route_left_splits.length + 1 ∧
      s'.edge_ids = snap.edge_ids ∧
      (∀ e ∈ r.route_edges, ∀ i, pyIndexOf snap.edge_ids e = some i →
        denormalize_edge_demand st ((s'.edges.getD i default).attr.getD 5 0) =
          denormalize_edge_demand st
            ((snap.edges.getD i default).attr.getD 5 0) + 1) := by
  obtain ⟨eIdx0, heIdx0⟩ := pyIndexOf_isSome_of_mem _ _ hcur
  unfold add_vehicle_to_last_snapshot
  cases heq : pyIndexOf snap.edge_ids r.current_edge_id with
  | none => exact absurd (heq.symm.trans heIdx0) (by simp)
  | some eIdx =>
    simp only []
    obtain ⟨heLt, heGet⟩ := pyIndexOf_spec _ _ eIdx heq
    have heLtE : eIdx < snap.edges.length := lt_of_lt_of_le heLt hlen
    have hattrE : (snap.edges.getD eIdx default).attr.length = 7 :=
      hattr _ (getD_mem _ _ _ heLtE)
    rw [if_pos heLtE, if_pos (by rw [hattrE]; omega)]
    set A0 := setEdgeAttr snap eIdx 0 (updated_current_speed st snap r)
      with hA0
    set A5 := setEdgeAttr A0 eIdx 5 (updated_current_demand st snap r)
      with hA5
    set s1 := setEdgeAttr A5 eIdx 6 (updated_current_occupancy st snap r)
      with hs1
    have h1ei : s1.edge_ids = snap.edge_ids := rfl
    have hlt1 : eIdx < A0.edges.length := by
      rw [hA0, setEdgeAttr_length]
      exact heLtE
    have hlt2 : eIdx < A5.edges.length := by
      rw [hA5, setEdgeAttr_length]
      exact hlt1
    have h1len : s1.edges.length = snap.edges.length := by
      rw [hs1, setEdgeAttr_length, hA5, setEdgeAttr_length, hA0,
        setEdgeAttr_length]
    have h1attr : ∀ ed ∈ s1.edges, ed.attr.length = 7 := by
      rw [hs1]
      refine setEdgeAttr_attr7 _ _ _ _ hlt2 ?_
      rw [hA5]
      refine setEdgeAttr_attr7 _ _ _ _ hlt1 ?_
      rw [hA0]
      exact setEdgeAttr_attr7 _ _ _ _ heLtE hattr
    have h1ety : ∀ j, ((s1.edges.getD j default)).ety =
        ((snap.edges.getD j default)).ety := by
      intro j
      rw [hs1, setEdgeAttr_ety _ _ _ _ _ hlt2, hA5,
        setEdgeAttr_ety _ _ _ _ _ hlt1, hA0, setEdgeAttr_ety _ _ _ _ _ heLtE]
    have h1attr5 : ∀ j, j ≠ eIdx →
        (s1.edges.getD j default).attr.getD 5 0 =
          (snap.edges.getD j default).attr.getD 5 0 := by
      intro j hj
      rw [hs1, setEdgeAttr_getD_ne _ _ _ _ _ hj, hA5,
        setEdgeAttr_getD_ne _ _ _ _ _ hj, hA0,
        setEdgeAttr_getD_ne _ _ _ _ _ hj]
    have hA0attrlen : (A0.edges.getD eIdx default).attr.length = 7 := by
      rw [hA0, setEdgeAttr_attr_get snap eIdx 0 _ heLtE, List.length_set]
      exact hattrE
    have h1attr5e : (s1.edges.getD eIdx default).attr.getD 5 0 =
        updated_current_demand st snap r := by
      rw [hs1, setEdgeAttr_attr_get A5 eIdx 6 _ hlt2,
        getD_set_ne _ 6 5 _ _ (by omega), hA5,
        setEdgeAttr_attr_get A0 eIdx 5 _ hlt1,
        getD_set_self _ 5 _ 0 (by rw [hA0attrlen]; omega)]
    obtain ⟨out, hout, hoei, hoj, hov, hor, hors, hoc, hop, hoxl, hox28,
        hoelen, hoattr, hoproj, hok, ho5⟩ :=
      route_loop_ok st (original_demands st snap r) r.route_edges s1 eIdx none
        (by
          intro e' he'
          rw [h1ei]
          exact hroute e' he')
        (by
          rw [h1ei, h1len]
          exact hlen)
        h1attr
        (by
          show s1.vehicle_ids.length ≤ s1.current_vehicle_current_edges.length
          exact hveh)
        (by
          show ∀ row ∈ snap.x, row.length = 28
          exact hrow)
    rw [hout]
    obtain ⟨keep, hax, hav, hars, haei, haedges, hke⟩ :=
      append_new_vehicle_spec st r (updated_current_demand st snap r)
        (updated_current_occupancy st snap r) out.1
    refine ⟨_, rfl, ?_, ?_, ?_, ?_, ?_, ?_⟩
    · rw [hax, List.length_append, hoxl]
      show s1.x.length + 1 = snap.x.length + 1
      rfl
    · rw [hax]
      exact getLastD_append_singleton _ _ _
    · rw [hav, hov]
      rfl
    · rw [hars, List.length_append, hors]
      show s1.vehicle_route_left_splits.length + 1 =
        snap.vehicle_route_left_splits.length + 1
      rfl
    · rw [haei, hoei, h1ei]
    · intro e he i hi
      obtain ⟨hiLt, hiGet⟩ := pyIndexOf_spec _ _ i hi
      have hiLtE : i < snap.edges.length := lt_of_lt_of_le hiLt hlen
      have hkeeppre : ∀ j, j < snap.edge_ids.length →
          keep (out.1.edges.getD j default) = true := by
        intro j hj
        cases hkj : keep (out.1.edges.getD j default) with
        | true => rfl
        | false =>
          exfalso
          have h1 := hke _ hkj
          have h2 := (hoproj j).2.2
          rw [h1ety j] at h2
          rw [hstatic j hj] at h2
          rw [h1] at h2
          exact absurd h2 (by omega)
      have hpre := filter_getD_prefix keep out.1.edges snap.edge_ids.length
        (by rw [hoelen, h1len]; exact hlen) hkeeppre
      have hsd : (append_new_vehicle st r (updated_current_demand st snap r)
          (updated_current_occupancy st snap r) out.1).edges.getD i default =
          out.1.edges.getD i default := by
        rw [haedges, getD_append_left _ _ i default (by omega)]
        exact hpre.2 i hiLt
      rw [hsd]
      have ho5i := ho5 i (by rw [h1len]; exact hiLtE)
      rw [if_pos ⟨e, he, by rw [h1ei]; exact hi⟩] at ho5i
      rw [ho5i]
      have hgd : s1.edge_ids.getD i "" = e := by
        rw [h1ei]
        exact hiGet
      rw [hgd]
      have hrt := denormalize_normalize_edge_demand st hstd
        (denormalize_edge_demand st ((original_demands st snap r e).getD 0) + 1)
        (by
          have := denormalize_edge_demand_nonneg st
            ((original_demands st snap r e).getD 0)
          omega)
      rw [hrt, denorm_original_demands st snap r hstd e he i hi]

theorem sync_preserves (li : ℕ) (lv : Option ℝ) (idxs : List ℕ) :
    ∀ (s s' : Snapshot), sync_vehicle_demand li lv s idxs = Except.ok s' →
      s'.x.length = s.x.length ∧ s'.vehicle_ids = s.vehicle_ids ∧
      s'.vehicle_route_left_splits = s.vehicle_route_left_splits := by
  induction idxs with
  | nil =>
    intro s s' h
    injection h with h
    subst h
    exact ⟨rfl, rfl, rfl⟩
  | cons i rest ih =>
    intro s s' h
    cases lv with
    | none =>
      rw [sync_vehicle_demand] at h
      by_cases h1 : i < s.current_vehicle_current_edges.length
      · rw [if_pos h1] at h
        by_cases h2 : s.current_vehicle_current_edges.getD i 0 = li
        · rw [if_pos h2] at h
          by_cases h3 : i < s.x.length
          · rw [if_pos h3] at h
            cases h
          · rw [if_neg h3] at h
            exact ih _ _ h
        · rw [if_neg h2] at h
          exact ih _ _ h
      · rw [if_neg h1] at h
        cases h
    | some v =>
      rw [sync_vehicle_demand] at h
      by_cases h1 : i < s.current_vehicle_current_edges.length
      · rw [if_pos h1] at h
        by_cases h2 : s.current_vehicle_current_edges.getD i 0 = li
        · rw [if_pos h2] at h
          by_cases h3 : i < s.x.length
          · rw [if_pos h3] at h
            by_cases h4 : 23 < (s.x.getD i []).length
            · rw [if_pos h4] at h
              obtain ⟨e1, e2, e3⟩ := ih _ _ h
              refine ⟨?_, e2, e3⟩
              rw [e1]
              exact List.length_set _ _ _
            · rw [if_neg h4] at h
              cases h
          · rw [if_neg h3] at h
            exact ih _ _ h
        · rw [if_neg h2] at h
          exact ih _ _ h
      · rw [if_neg h1] at h
        cases h

theorem route_loop_preserves (stt : Stats) (orig : String → Option ℝ)
    (es : List String) :
    ∀ (s : Snapshot) (li : ℕ) (lv : Option ℝ) (out : Snapshot × ℕ × Option ℝ),
    route_demand_loop stt orig s li lv es = Except.ok out →
      out.1.x.length = s.x.length ∧ out.1.vehicle_ids = s.vehicle_ids ∧
      out.1.vehicle_route_left_splits = s.vehicle_route_left_splits := by
  induction es with
  | nil =>
    intro s li lv out h
    injection h with h
    subst h
    exact ⟨rfl, rfl, rfl⟩
  | cons e rest ih =>
    intro s li lv out h
    rw [route_demand_loop] at h
    cases hp : pyIndexOf s.edge_ids e with
    | some i =>
      rw [hp] at h
      simp only [] at h
      by_cases h1 : i < s.edges.length
      · rw [if_pos h1] at h
        by_cases h2 : 5 < ((s.edges.getD i default).attr).length
        · rw [if_pos h2] at h
          cases hs : sync_vehicle_demand i
              (some (normalize_edge_demand stt
                ((denormalize_edge_demand stt ((orig e).getD 0) + 1 : ℤ) : ℝ)))
              (setEdgeAttr s i 5
                (normalize_edge_demand stt
                  ((denormalize_edge_demand stt ((orig e).getD 0) + 1 : ℤ) : ℝ)))
              (List.range
                (setEdgeAttr s i 5
                  (normalize_edge_demand stt
                    ((denormalize_edge_demand stt
                      ((orig e).getD 0) + 1 : ℤ) : ℝ))).vehicle_ids.length) with
          | error err =>
            rw [hs] at h
            cases h
          | ok s2 =>
            rw [hs] at h
            obtain ⟨f1, f2, f3⟩ := ih _ _ _ _ h
            obtain ⟨g1, g2, g3⟩ := sync_preserves _ _ _ _ _ hs
            exact ⟨by rw [f1, g1]; rfl, by rw [f2, g2]; rfl,
              by rw [f3, g3]; rfl⟩
        · rw [if_neg h2] at h
          cases h
      · rw [if_neg h1] at h
        cases h
    | none =>
      rw [hp] at h
      simp only [] at h
      cases hs : sync_vehicle_demand li lv s
          (List.range s.vehicle_ids.length) with
      | error err =>
        rw [hs] at h
        cases h
      | ok s2 =>
        rw [hs] at h
        obtain ⟨f1, f2, f3⟩ := ih _ _ _ _ h
        obtain ⟨g1, g2, g3⟩ := sync_preserves _ _ _ _ _ hs
        exact ⟨by rw [f1, g1], by rw [f2, g2], by rw [f3, g3]⟩

/-- C5: on a well-formed window snapshot (current edge id present, all route
edge ids present, 28-wide node rows, 7-wide edge attribute vectors, static
edges in the id-indexed prefix, splits aligned with vehicles),
`add_vehicle_to_last_snapshot` succeeds, the node count equals the previous
node count plus 1, the vehicle-route-split count equals the previous vehicle
count plus 1, and the new vehicle's feature row is the last node row. -/
theorem C5_insertion_invariants (st : Stats) (snap : Snapshot)
    (r : VehicleReq)
    (hstd : st.demand_log_std ≠ 0)
    (hcur : r.current_edge_id ∈ snap.edge_ids)
    (hroute : ∀ e ∈ r.route_edges, e ∈ snap.edge_ids)
    (hlen : snap.edge_ids.length ≤ snap.edges.length)
    (hattr : ∀ ed ∈ snap.edges, ed.attr.length = 7)
    (hveh : snap.vehicle_ids.length ≤
      snap.current_vehicle_current_edges.length)
    (hrow : ∀ row ∈ snap.x, row.length = 28)
    (hstatic : ∀ j, j < snap.edge_ids.length →
      (snap.edges.getD j default).ety = 0)
    (hsplit : snap.vehicle_route_left_splits.length =
      snap.vehicle_ids.length) :
    ∃ s', add_vehicle_to_last_snapshot st snap r = Except.ok s' ∧
      s'.x.length = snap.x.length + 1 ∧
      s'.vehicle_route_left_splits.length = snap.vehicle_ids.length + 1 ∧
      s'.x.getLastD [] = mkVehicleFeatures st r
        (updated_current_demand st snap r)
        (updated_current_occupancy st snap r) := by
  obtain ⟨s', h1, h2, h3, h4, h5, h6, h7⟩ :=
    add_vehicle_spec st snap r hstd hcur hroute hlen hattr hveh hrow hstatic
  exact ⟨s', h1, h2, by rw [h5, hsplit], h3⟩

/-- Witness for C5 at the fallback statistics, a one-edge snapshot with no
vehicles, and a concrete insertion request. -/
theorem C5_insertion_invariants_witness :
    ∃ s', add_vehicle_to_last_snapshot fallbackStats snapW reqW =
        Except.ok s' ∧
      s'.x.length = snapW.x.length + 1 ∧
      s'.vehicle_route_left_splits.length = snapW.vehicle_ids.length + 1 ∧
      s'.x.getLastD [] = mkVehicleFeatures fallbackStats reqW
        (updated_current_demand fallbackStats snapW reqW)
        (updated_current_occupancy fallbackStats snapW reqW) :=
  C5_insertion_invariants fallbackStats snapW reqW
    (by norm_num [fallbackStats])
    (List.mem_singleton.mpr rfl)
    (by
      intro e he
      rw [List.mem_singleton.mp he]
      exact List.mem_singleton.mpr rfl)
    (Nat.le_refl _)
    (by
      intro ed hed
      rw [List.mem_singleton.mp hed]
      rfl)
    (Nat.le_refl _)
    (fun row h => absurd h (List.not_mem_nil row))
    (by
      intro j hj
      have hj0 : j = 0 := Nat.lt_one_iff.mp hj
      rw [hj0]
      rfl)
    rfl

/-- C1: on a well-formed window snapshot whose edge-id list contains the
request's current edge and every edge of its remaining route,
`add_vehicle_to_last_snapshot` succeeds and raises the raw (denormalized)
demand of every route edge by exactly 1 — including the current edge when it
equals `route[0]`, because the per-route update reads the pre-update demand
captured in `original_edge_demands`. -/
theorem C1_route_demand_increment (st : Stats) (snap : Snapshot)
    (r : VehicleReq)
    (hstd : st.demand_log_std ≠ 0)
    (hcur : r.current_edge_id ∈ snap.edge_ids)
    (hroute : ∀ e ∈ r.route_edges, e ∈ snap.edge_ids)
    (hlen : snap.edge_ids.length ≤ snap.edges.length)
    (hattr : ∀ ed ∈ snap.edges, ed.attr.length = 7)
    (hveh : snap.vehicle_ids.length ≤
      snap.current_vehicle_current_edges.length)
    (hrow : ∀ row ∈ snap.x, row.length = 28)
    (hstatic : ∀ j, j < snap.edge_ids.length →
      (snap.edges.getD j default).ety = 0) :
    ∃ s', add_vehicle_to_last_snapshot st snap r = Except.ok s' ∧
      ∀ e ∈ r.route_edges, ∀ i, pyIndexOf snap.edge_ids e = some i →
        denormalize_edge_demand st
          ((s'.edges.getD i default).attr.getD 5 0) =
        denormalize_edge_demand st
          ((snap.edges.getD i default).attr.getD 5 0) + 1 := by
  obtain ⟨s', h1, _, _, _, _, _, h7⟩ :=
    add_vehicle_spec st snap r hstd hcur hroute hlen hattr hveh hrow hstatic
  exact ⟨s', h1, h7⟩

/-- Witness for C1 on a request whose current edge equals the first route
edge: the single route edge's raw demand rises by exactly 1, not 2. -/
theorem C1_route_demand_increment_witness :
    ∃ s', add_vehicle_to_last_snapshot fallbackStats snapW reqW =
        Except.ok s' ∧
      ∀ e ∈ reqW.route_edges, ∀ i, pyIndexOf snapW.edge_ids e = some i →
        denormalize_edge_demand fallbackStats
          ((s'.edges.getD i default).attr.getD 5 0) =
        denormalize_edge_demand fallbackStats
          ((snapW.edges.getD i default).attr.getD 5 0) + 1 :=
  C1_route_demand_increment fallbackStats snapW reqW
    (by norm_num [fallbackStats])
    (List.mem_singleton.mpr rfl)
    (by
      intro e he
      rw [List.mem_singleton.mp he]
      exact List.mem_singleton.mpr rfl)
    (Nat.le_refl _)
    (by
      intro ed hed
      rw [List.mem_singleton.mp hed]
      rfl)
    (Nat.le_refl _)
    (fun row h => absurd h (List.not_mem_nil row))
    (by
      intro j hj
      have hj0 : j = 0 := Nat.lt_one_iff.mp hj
      rw [hj0]
      rfl)

theorem sync_run_ok (li : ℕ) (lv : Option ℝ) (idxs : List ℕ) :
    ∀ (s s' : Snapshot), sync_vehicle_demand li lv s idxs = Except.ok s' →
      sync_vehicle_demand_run li lv s idxs = (s', none) := by
  induction idxs with
  | nil =>
    intro s s' h
    injection h with h
    subst h
    rfl
  | cons i rest ih =>
    intro s s' h
    cases lv with
    | none =>
      rw [sync_vehicle_demand] at h
      rw [sync_vehicle_demand_run]
      by_cases h1 : i < s.current_vehicle_current_edges.length
      · rw [if_pos h1] at h ⊢
        by_cases h2 : s.current_vehicle_current_edges.getD i 0 = li
        · rw [if_pos h2] at h ⊢
          by_cases h3 : i < s.x.length
          · rw [if_pos h3] at h
            cases h
          · rw [if_neg h3] at h ⊢
            exact ih _ _ h
        · rw [if_neg h2] at h ⊢
          exact ih _ _ h
      · rw [if_neg h1] at h
        cases h
    | some v =>
      rw [sync_vehicle_demand] at h
      rw [sync_vehicle_demand_run]
      by_cases h1 : i < s.current_vehicle_current_edges.length
      · rw [if_pos h1] at h ⊢
        by_cases h2 : s.current_vehicle_current_edges.getD i 0 = li
        · rw [if_pos h2] at h ⊢
          by_cases h3 : i < s.x.length
          · rw [if_pos h3] at h ⊢
            by_cases h4 : 23 < (s.x.getD i []).length
            · rw [if_pos h4] at h ⊢
              exact ih _ _ h
            · rw [if_neg h4] at h
              cases h
          · rw [if_neg h3] at h ⊢
            exact ih _ _ h
        · rw [if_neg h2] at h ⊢
          exact ih _ _ h
      · rw [if_neg h1] at h
        cases h

theorem route_loop_run_ok (stt : Stats) (orig : String → Option ℝ)
    (es : List String) :
    ∀ (s : Snapshot) (li : ℕ) (lv : Option ℝ) (out : Snapshot × ℕ × Option ℝ),
    route_demand_loop stt orig s li lv es = Except.ok out →
      route_demand_loop_run stt orig s li lv es = (out, none) := by
  induction es with
  | nil =>
    intro s li lv out h
    injection h with h
    subst h
    rfl
  | cons e rest ih =>
    intro s li lv out h
    rw [route_demand_loop] at h
    rw [route_demand_loop_run]
    cases hp : pyIndexOf s.edge_ids e with
    | some i =>
      rw [hp] at h
      simp only [] at h
      simp only []
      by_cases h1 : i < s.edges.length
      · rw [if_pos h1] at h ⊢
        by_cases h2 : 5 < ((s.edges.getD i default).attr).length
        · rw [if_pos h2] at h ⊢
          cases hs : sync_vehicle_demand i
              (some (normalize_edge_demand stt
                ((denormalize_edge_demand stt ((orig e).getD 0) + 1 : ℤ) : ℝ)))
              (setEdgeAttr s i 5
                (normalize_edge_demand stt
                  ((denormalize_edge_demand stt ((orig e).getD 0) + 1 : ℤ) : ℝ)))
              (List.range
                (setEdgeAttr s i 5
                  (normalize_edge_demand stt
                    ((denormalize_edge_demand stt
                      ((orig e).getD 0) + 1 : ℤ) : ℝ))).vehicle_ids.length) with
          | error err =>
            rw [hs] at h
            cases h
          | ok s2 =>
            rw [hs] at h
            rw [sync_run_ok _ _ _ _ _ hs]
            exact ih _ _ _ _ h
        · rw [if_neg h2] at h
          cases h
      · rw [if_neg h1] at h
        cases h
    | none =>
      rw [hp] at h
      simp only [] at h
      simp only []
      cases hs : sync_vehicle_demand li lv s
          (List.range s.vehicle_ids.length) with
      | error err =>
        rw [hs] at h
        cases h
      | ok s2 =>
        rw [hs] at h
        rw [sync_run_ok _ _ _ _ _ hs]
        exact ih _ _ _ _ h

theorem add_vehicle_run_ok (st : Stats) (snap : Snapshot) (r : VehicleReq)
    (s' : Snapshot)
    (h : add_vehicle_to_last_snapshot st snap r = Except.ok s') :
    add_vehicle_run st snap r = (s', none) := by
  rw [add_vehicle_to_last_snapshot] at h
  simp only [add_vehicle_run]
  cases hp : pyIndexOf snap.edge_ids r.current_edge_id with
  | none =>
    rw [hp] at h
    cases h
  | some eIdx =>
    rw [hp] at h
    simp only [] at h
    simp only []
    by_cases h1 : eIdx < snap.edges.length
    · rw [if_pos h1] at h
      rw [if_pos h1]
      by_cases h2 : 6 < ((snap.edges.getD eIdx default).attr).length
      · rw [if_pos h2] at h
        rw [if_pos (show 0 < ((snap.edges.getD eIdx default).attr).length by
          omega)]
        rw [if_pos (show 5 < ((snap.edges.getD eIdx default).attr).length by
          omega)]
        rw [if_pos h2]
        cases hr : route_demand_loop st (original_demands st snap r)
            (setEdgeAttr
              (setEdgeAttr (setEdgeAttr snap eIdx 0
                (updated_current_speed st snap r))
                eIdx 5 (updated_current_demand st snap r))
              eIdx 6 (updated_current_occupancy st snap r))
            eIdx none r.route_edges with
        | error err =>
          rw [hr] at h
          cases h
        | ok lp =>
          rw [hr] at h
          injection h with h
          rw [route_loop_run_ok st (original_demands st snap r) r.route_edges
            _ eIdx none lp hr]
          simp only []
          rw [h]
      · rw [if_neg h2] at h
        cases h
    · rw [if_neg h1] at h
      cases h

/-- A failing insertion that still mutates: on `snapP`/`reqP` the current-edge
attribute writes go through, then the route loop hits the unbound
`new_edge_demand_normalized` (`NameError`), and the final object state keeps
the demand write — slot 5 of the edge now holds the incremented, renormalised
demand `log 2`, no longer the stored `0`. -/
theorem add_vehicle_run_failure_mutates :
    (add_vehicle_run statsZ snapP reqP).2 = some Err.nameError ∧
    ((add_vehicle_run statsZ snapP reqP).1.edges.getD 0 default).attr.getD 5
      0 ≠ ((snapP.edges.getD 0 default).attr).getD 5 0 := by
  constructor
  · rfl
  · show updated_current_demand statsZ snapP reqP ≠ 0
    have hF : (get_current_edge_features snapP reqP.current_edge_id).1 = 0 :=
      rfl
    rw [updated_current_demand, hF]
    have hd : denormalize_edge_demand statsZ 0 = 0 := by
      rw [denormalize_edge_demand]
      have h0 : (0 : ℝ) * statsZ.demand_log_std + statsZ.demand_log_mean =
          ((0 : ℤ) : ℝ) := by
        norm_num [statsZ]
      rw [h0]
      rw [show expm1 ((0 : ℤ) : ℝ) = ((0 : ℤ) : ℝ) by
        rw [expm1]
        norm_num]
      rw [pyRound_intCast]
      rfl
    rw [hd]
    rw [normalize_edge_demand]
    have h1 : log1p (((0 : ℤ) + 1 : ℤ) : ℝ) = Real.log 2 := by
      rw [log1p]
      norm_num
    rw [h1]
    have h2 : (0 : ℝ) < Real.log 2 := Real.log_pos (by norm_num)
    rw [show statsZ.demand_log_mean = (0 : ℝ) from rfl,
      show statsZ.demand_log_std = (1 : ℝ) from rfl]
    intro hcontra
    rw [sub_zero, div_one] at hcontra
    exact absurd hcontra h2.ne'

/-- C2 counterexample: in the heap model of object identity, a successful
insertion rewrites the snapshot object at the very address that was passed in
(the mutator works on the last window snapshot itself; no clone is taken), so
the snapshot stored at that address differs from the original after the
call. -/
theorem C2_clone_counterexample :
    ∃ heap', add_vehicle_heap fallbackStats [snapW] 0 reqW =
        (heap', 0, none) ∧
      (heap'.getD 0 default).vehicle_ids ≠ snapW.vehicle_ids := by
  obtain ⟨s', h1, h2, h3, h4, h5, h6, h7⟩ :=
    add_vehicle_spec fallbackStats snapW reqW
      (by norm_num [fallbackStats])
      (List.mem_singleton.mpr rfl)
      (by
        intro e he
        rw [List.mem_singleton.mp he]
        exact List.mem_singleton.mpr rfl)
      (Nat.le_refl _)
      (by
        intro ed hed
        rw [List.mem_singleton.mp hed]
        rfl)
      (Nat.le_refl _)
      (fun row h => absurd h (List.not_mem_nil row))
      (by
        intro j hj
        have hj0 : j = 0 := Nat.lt_one_iff.mp hj
        rw [hj0]
        rfl)
  have hrun : add_vehicle_run fallbackStats
      (([snapW] : List Snapshot).getD 0 default) reqW = (s', none) :=
    add_vehicle_run_ok fallbackStats snapW reqW s' h1
  refine ⟨[snapW].set 0 s', ?_, ?_⟩
  · unfold add_vehicle_heap
    rw [hrun]
  · show s'.vehicle_ids ≠ snapW.vehicle_ids
    rw [h4]
    decide

/-- C2 amended: the call touches only the addressed snapshot object — whether
it returns normally or raises, every OTHER heap cell (the rest of the loaded
dataset) is unchanged and the same address comes back. -/
theorem C2_heap_frame (st : Stats) (heap : List Snapshot) (a : ℕ)
    (r : VehicleReq) (b : ℕ) (hba : b ≠ a) :
    (add_vehicle_heap st heap a r).1.getD b default = heap.getD b default ∧
    (add_vehicle_heap st heap a r).2.1 = a :=
  ⟨getD_set_ne heap a b _ default (fun hh => hba hh.symm), rfl⟩

/-- Witness for C2 amended at a two-cell heap: inserting at address 0 leaves
the cell at address 1 untouched and returns address 0. -/
theorem C2_heap_frame_witness :
    (add_vehicle_heap fallbackStats [snapW, snapW] 0 reqW).1.getD 1 default =
      ([snapW, snapW] : List Snapshot).getD 1 default ∧
    (add_vehicle_heap fallbackStats [snapW, snapW] 0 reqW).2.1 = 0 :=
  C2_heap_frame fallbackStats [snapW, snapW] 0 reqW 1 (by decide)

theorem length_filter_decide_not {α : Type _} (A : α → Prop) [DecidablePred A]
    (L : List α) :
    (L.filter (fun e => decide (¬ A e))).length +
      L.countP (fun e => decide (A e)) = L.length := by
  induction L with
  | nil => rfl
  | cons a t ih =>
    rw [List.filter_cons, List.countP_cons]
    by_cases h : A a
    · rw [if_neg (by simp [h]), if_pos (by simp [h])]
      simp only [List.length_cons]
      omega
    · rw [if_pos (by simp [h]), if_neg (by simp [h])]
      simp only [List.length_cons]
      omega

theorem mergeSort_headD_min (pos : List ℝ) (l : List ℕ) (hne : l ≠ []) :
    ((l.mergeSort
        (fun i j => decide (pos.getD i 0 ≤ pos.getD j 0))).headD 0 ∈ l) ∧
    ∀ i ∈ l,
      pos.getD ((l.mergeSort
        (fun i j => decide (pos.getD i 0 ≤ pos.getD j 0))).headD 0) 0 ≤
      pos.getD i 0 := by
  set le : ℕ → ℕ → Bool :=
    fun i j => decide (pos.getD i 0 ≤ pos.getD j 0) with hle
  have hperm := List.mergeSort_perm l le
  have hsorted : (l.mergeSort le).Pairwise (fun a b => le a b = true) :=
    List.sorted_mergeSort
      (fun a b c hab hbc => by
        rw [hle] at hab hbc ⊢
        rw [decide_eq_true_eq] at hab hbc ⊢
        exact le_trans hab hbc)
      (fun a b => by
        rw [hle]
        rcases le_total (pos.getD a 0) (pos.getD b 0) with h | h
        · exact Bool.or_eq_true_iff.mpr (Or.inl (decide_eq_true h))
        · exact Bool.or_eq_true_iff.mpr (Or.inr (decide_eq_true h)))
      l
  cases hms : l.mergeSort le with
  | nil =>
    rw [hms] at hperm
    exact absurd hperm.symm.eq_nil hne
  | cons h0 t =>
    rw [hms] at hperm hsorted
    simp only [List.headD_cons]
    constructor
    · exact hperm.mem_iff.mp (List.mem_cons_self h0 t)
    · intro i hi
      have hi' : i ∈ h0 :: t := hperm.mem_iff.mpr hi
      rcases List.mem_cons.mp hi' with h' | h'
      · rw [h']
      · have := (List.pairwise_cons.mp hsorted).1 i h'
        rw [hle, decide_eq_true_eq] at this
        exact this

/-- C4: under a resolvable edge id (the new vehicle's current-edge index is
in range, the edge id parses into two junction tokens both present in the
junction list) and in-range vehicle positions, `_construct_dynamic_edges`
behaves as claimed: with no existing vehicle on the edge it leaves the stored
edges untouched and returns exactly two fresh dynamic edges, type 1 from the
origin junction to the new vehicle and type 2 from the new vehicle to the
destination junction, both with zeroed feature vectors; with at least one
existing vehicle it picks an existing vehicle `first` of minimal
position-on-edge, drops exactly the stored type-1 edges from the origin
junction to `first` (exactly one edge when the single-chain invariant gives
exactly one such edge), and returns two fresh dynamic edges, type 1 to the
new vehicle and type 3 from the new vehicle to `first`, both with zeroed
feature vectors. -/
theorem C4_dynamic_edge_reconciliation (s : Snapshot) (n : ℕ)
    (fj tj : String) (rest : List String) (fjIdx tjIdx : ℕ)
    (hn : n < s.current_vehicle_current_edges.length)
    (hei : s.current_vehicle_current_edges.getD n 0 < s.edge_ids.length)
    (htok : findTokens
      (s.edge_ids.getD (s.current_vehicle_current_edges.getD n 0) "") =
      fj :: tj :: rest)
    (hfj : dictGet s.junction_ids fj = some fjIdx)
    (htj : dictGet s.junction_ids tj = some tjIdx)
    (hpos : ∀ i ∈ existingVehicles s n,
      i < s.current_vehicle_position_on_edges.length) :
    (existingVehicles s n = [] →
      construct_dynamic_edges s n = (s,
        [⟨fjIdx, s.junction_ids.length + n, 1,
          List.replicate (edge_feature_dim s.edges) 0⟩,
         ⟨s.junction_ids.length + n, tjIdx, 2,
          List.replicate (edge_feature_dim s.edges) 0⟩])) ∧
    (existingVehicles s n ≠ [] →
      ∃ first ∈ existingVehicles s n,
        (∀ i ∈ existingVehicles s n,
          s.current_vehicle_position_on_edges.getD first 0 ≤
          s.current_vehicle_position_on_edges.getD i 0) ∧
        construct_dynamic_edges s n =
          ({ s with edges := s.edges.filter (fun e =>
              decide (¬ (e.src = fjIdx ∧
                e.dst = s.junction_ids.length + first ∧ e.ety = 1))) },
           [⟨fjIdx, s.junction_ids.length + n, 1,
             List.replicate (edge_feature_dim s.edges) 0⟩,
            ⟨s.junction_ids.length + n, s.junction_ids.length + first, 3,
             List.replicate (edge_feature_dim s.edges) 0⟩]) ∧
        (s.edges.countP (fun e =>
            decide (e.src = fjIdx ∧
              e.dst = s.junction_ids.length + first ∧ e.ety = 1)) = 1 →
          (construct_dynamic_edges s n).1.edges.length + 1 =
            s.edges.length)) := by
  have hlen2 : 2 ≤ (fj :: tj :: rest).length := by simp
  constructor
  · intro hemp
    have hempb : (existingVehicles s n).isEmpty = true := by rw [hemp]; rfl
    simp only [construct_dynamic_edges]
    rw [if_pos hn, if_pos hei, htok, if_pos hlen2]
    simp only [List.getD_cons_zero, List.getD_cons_succ]
    rw [hfj, htj]
    simp only []
    rw [if_pos hempb]
  · intro hne
    have hempb : (existingVehicles s n).isEmpty = false := by
      cases hx : existingVehicles s n with
      | nil => exact absurd hx hne
      | cons a t => rfl
    have hall : (existingVehicles s n).all
        (fun i => decide (i < s.current_vehicle_position_on_edges.length)) =
        true :=
      List.all_eq_true.mpr (fun i hi => decide_eq_true (hpos i hi))
    obtain ⟨hmem, hmin⟩ :=
      mergeSort_headD_min s.current_vehicle_position_on_edges
        (existingVehicles s n) hne
    refine ⟨((existingVehicles s n).mergeSort
        (fun i j => decide (s.current_vehicle_position_on_edges.getD i 0 ≤
          s.current_vehicle_position_on_edges.getD j 0))).headD 0,
      hmem, hmin, ?_⟩
    have heq : construct_dynamic_edges s n =
        ({ s with edges := s.edges.filter (fun e =>
            decide (¬ (e.src = fjIdx ∧
              e.dst = s.junction_ids.length +
                ((existingVehicles s n).mergeSort
                  (fun i j =>
                    decide (s.current_vehicle_position_on_edges.getD i 0 ≤
                      s.current_vehicle_position_on_edges.getD j 0))).headD 0 ∧
              e.ety = 1))) },
         [⟨fjIdx, s.junction_ids.length + n, 1,
           List.replicate (edge_feature_dim s.edges) 0⟩,
          ⟨s.junction_ids.length + n,
           s.junction_ids.length +
             ((existingVehicles s n).mergeSort
               (fun i j =>
                 decide (s.current_vehicle_position_on_edges.getD i 0 ≤
                   s.current_vehicle_position_on_edges.getD j 0))).headD 0, 3,
           List.replicate (edge_feature_dim s.edges) 0⟩]) := by
      simp only [construct_dynamic_edges]
      rw [if_pos hn, if_pos hei, htok, if_pos hlen2]
      simp only [List.getD_cons_zero, List.getD_cons_succ]
      rw [hfj, htj]
      simp only []
      rw [if_neg (by rw [hempb]; exact Bool.false_ne_true), if_pos hall]
    refine ⟨heq, ?_⟩
    intro hcount
    rw [heq]
    have hsum := length_filter_decide_not
      (fun e : EdgeRec => e.src = fjIdx ∧
        e.dst = s.junction_ids.length +
          ((existingVehicles s n).mergeSort
            (fun i j =>
              decide (s.current_vehicle_position_on_edges.getD i 0 ≤
                s.current_vehicle_position_on_edges.getD j 0))).headD 0 ∧
        e.ety = 1)
      s.edges
    rw [hcount] at hsum
    exact hsum

/-- Witness for C4 in the occupied case: one existing vehicle on edge `A0B0`
whose stale Junction→Vehicle edge is dropped, and two fresh dynamic edges of
types 1 and 3 are produced. -/
theorem C4_dynamic_edge_reconciliation_witness :
    (existingVehicles snapO 1 = [] →
      construct_dynamic_edges snapO 1 = (snapO,
        [⟨0, snapO.junction_ids.length + 1, 1,
          List.replicate (edge_feature_dim snapO.edges) 0⟩,
         ⟨snapO.junction_ids.length + 1, 1, 2,
          List.replicate (edge_feature_dim snapO.edges) 0⟩])) ∧
    (existingVehicles snapO 1 ≠ [] →
      ∃ first ∈ existingVehicles snapO 1,
        (∀ i ∈ existingVehicles snapO 1,
          snapO.current_vehicle_position_on_edges.getD first 0 ≤
          snapO.current_vehicle_position_on_edges.getD i 0) ∧
        construct_dynamic_edges snapO 1 =
          ({ snapO with edges := snapO.edges.filter (fun e =>
              decide (¬ (e.src = 0 ∧
                e.dst = snapO.junction_ids.length + first ∧ e.ety = 1))) },
           [⟨0, snapO.junction_ids.length + 1, 1,
             List.replicate (edge_feature_dim snapO.edges) 0⟩,
            ⟨snapO.junction_ids.length + 1,
             snapO.junction_ids.length + first, 3,
             List.replicate (edge_feature_dim snapO.edges) 0⟩]) ∧
        (snapO.edges.countP (fun e =>
            decide (e.src = 0 ∧
              e.dst = snapO.junction_ids.length + first ∧ e.ety = 1)) = 1 →
          (construct_dynamic_edges snapO 1).1.edges.length + 1 =
            snapO.edges.length)) :=
  C4_dynamic_edge_reconciliation snapO 1 "A0" "B0" [] 0 1
    (by decide) (by decide) (by decide) (by decide) (by decide)
    (by
      intro i hi
      have : i < 2 := by
        have := List.mem_filter.mp hi
        have h2 := List.mem_range.mp this.1
        exact h2
      exact this)

/-- C8: refutation of the claimed non-fatal degradation.  The zero fallback
exists only inside the current-edge feature reader;
`add_vehicle_to_last_snapshot` then evaluates the unguarded list-index call
on the edge-id list, so an insertion request whose current edge id is absent
from the snapshot raises `ValueError` instead of completing. -/
theorem C8_unknown_edge_value_error :
    get_current_edge_features snapW reqBad.current_edge_id = (0, 0, 0) ∧
    add_vehicle_to_last_snapshot fallbackStats snapW reqBad =
      Except.error Err.valueError :=
  ⟨rfl, rfl⟩

end

end TrafficLab
